import Mathlib

/-!
# Todo REST API: repository and use-case layer

A shallow embedding of `domain/entity`, `infrastructure/dynamodb` and
`usecase/todo`.  The Go library calls the repository relies on
(`time.Time.Format`, `time.Parse`, `uuid.UUID.String`, `uuid.Parse`) are
modelled by executable functions for the one layout the repository uses,
`"2006-01-02T15:04:05Z"`.
-/

namespace TodoApi

/-! ## Go `time` -/

/-- A Go `time.Time`: the instant (`sec` whole seconds since the Unix epoch plus
`nsec` nanoseconds) and the offset east of UTC, in seconds, that the value's
`Location` has at that instant.  The monotonic clock reading is left out: it
takes no part in `Format` or in the comparison of instants. -/
structure Time where
  sec : Int
  nsec : Nat
  offset : Int
  deriving DecidableEq, Repr

/-- Cumulative days before each month of a non-leap year (`daysBefore`). -/
def daysBefore : List Nat := [0, 31, 59, 90, 120, 151, 181, 212, 243, 273, 304, 334, 365]

/-- Leap-year rule of the proleptic Gregorian calendar (`isLeap`). -/
def isLeap (year : Int) : Bool :=
  year % 4 == 0 && (year % 100 != 0 || year % 400 == 0)

/-- Days from 0001-01-01 to 1970-01-01. -/
def unixEpochDays : Int := 719162

/-- Year and zero-based day of the year of a day number counted from the Unix
epoch (first half of `absDate`): 400-, 100-, 4- and 1-year cycles are cut off in
turn. -/
def yearDay (days : Int) : Int × Nat :=
  let d1 := days + unixEpochDays
  let n400 := d1 / 146097
  let d := (d1 % 146097).toNat
  let n100 := d / 36524 - d / 36524 / 4
  let d := d - 36524 * n100
  let n4 := d / 1461
  let d := d - 1461 * n4
  let n1 := d / 365 - d / 365 / 4
  let d := d - 365 * n1
  (400 * n400 + 100 * n100 + 4 * n4 + n1 + 1, d)

/-- Month and day of the month of a zero-based day of the year (second half of
`absDate`): the month is estimated on the assumption that every month has 31
days and corrected with `daysBefore`. -/
def monthDay (leap : Bool) (yday : Nat) : Nat × Nat :=
  if leap && yday == 59 then (2, 29)
  else
    let day := if leap && yday > 59 then yday - 1 else yday
    let month := day / 31
    let stop := daysBefore.getD (month + 1) 0
    if day ≥ stop then (month + 2, day - stop + 1)
    else (month + 1, day - daysBefore.getD month 0 + 1)

/-- Civil year, month and day of a day number counted from the Unix epoch (`absDate`). -/
def absDate (days : Int) : Int × Nat × Nat :=
  let (year, yday) := yearDay days
  (year, monthDay (isLeap year) yday)

/-- Hour, minute and second of a second-of-day count (`absClock`). -/
def absClock (s : Nat) : Nat × Nat × Nat :=
  (s / 3600, s % 3600 / 60, s % 3600 % 60)

/-- Days from 0001-01-01 to the first of January of `year` (`daysSinceEpoch`). -/
def daysSinceEpoch (year : Int) : Int :=
  let y := year - 1
  let n400 := y / 400
  let y := y - 400 * n400
  let n100 := y / 100
  let y := y - 100 * n100
  let n4 := y / 4
  let y := y - 4 * n4
  146097 * n400 + 36524 * n100 + 1461 * n4 + 365 * y

/-- Number of days of a month (`daysIn`). -/
def daysIn (month : Nat) (year : Int) : Nat :=
  if month = 2 ∧ isLeap year then 29
  else daysBefore.getD month 0 - daysBefore.getD (month - 1) 0

/-- The UTC time of the given civil fields (`time.Date` with location UTC), for
fields already in range, which is how `time.Parse` calls it. -/
def Date (year : Int) (month day hour min sec nsec : Nat) : Time :=
  let d := daysSinceEpoch year + daysBefore.getD (month - 1) 0
    + (if isLeap year && month ≥ 3 then 1 else 0) + (day - 1 : Nat)
  { sec := (d - unixEpochDays) * 86400 + hour * 3600 + min * 60 + sec, nsec := nsec, offset := 0 }

/-- Decimal rendering of `x`, zero-padded to `width` digits, with a leading minus
sign for negative values (`appendInt`). -/
def appendInt (x : Int) (width : Nat) : List Char :=
  let u := x.natAbs
  let sign := if x < 0 then ['-'] else []
  if width = 2 ∧ u < 100 then
    sign ++ [Nat.digitChar (u / 10), Nat.digitChar (u % 10)]
  else if width = 4 ∧ u < 10000 then
    sign ++ [Nat.digitChar (u / 1000), Nat.digitChar (u / 100 % 10),
      Nat.digitChar (u / 10 % 10), Nat.digitChar (u % 10)]
  else
    sign ++ List.replicate (width - (Nat.toDigits 10 u).length) '0' ++ Nat.toDigits 10 u

/-- The rendering `t.Format("2006-01-02T15:04:05Z")`.  The layout has no zone
element (a `Z` not followed by `07` is literal text), so the civil fields are
those of the wall clock in the value's own location, followed by the letter Z. -/
def Time.Format (t : Time) : String :=
  let abs := t.sec + t.offset
  let (year, month, day) := absDate (abs / 86400)
  let (hour, min, sec) := absClock (abs % 86400).toNat
  String.mk (appendInt year 4 ++ ['-'] ++ appendInt month 2 ++ ['-'] ++ appendInt day 2 ++ ['T']
    ++ appendInt hour 2 ++ [':'] ++ appendInt min 2 ++ [':'] ++ appendInt sec 2 ++ ['Z'])

/-- Value of a decimal digit character. -/
def digitVal (c : Char) : Nat := c.toNat - 48

/-- One or two leading digits of `s` (`getnum`); with `fixed` exactly two are required. -/
def getnum (s : List Char) (fixed : Bool) : Option (Nat × List Char) :=
  match s with
  | [] => none
  | [c0] => if c0.isDigit && !fixed then some (digitVal c0, []) else none
  | c0 :: c1 :: rest =>
    if !c0.isDigit then none
    else if !c1.isDigit then (if fixed then none else some (digitVal c0, c1 :: rest))
    else some (digitVal c0 * 10 + digitVal c1, rest)

/-- The four-digit year element `2006` of a layout: four digits, no sign. -/
def getYear (s : List Char) : Option (Int × List Char) :=
  match s with
  | c0 :: c1 :: c2 :: c3 :: rest =>
    if c0.isDigit && c1.isDigit && c2.isDigit && c3.isDigit then
      some (((digitVal c0 * 1000 + digitVal c1 * 100 + digitVal c2 * 10 + digitVal c3 : Nat) : Int), rest)
    else none
  | _ => none

/-- A literal layout character must be the next character of the value (`skip`). -/
def skip (s : List Char) (c : Char) : Option (List Char) :=
  match s with
  | [] => none
  | v :: rest => if v = c then some rest else none

/-- Value of a run of decimal digits, most significant first. -/
def digitsVal (ds : List Char) : Nat := ds.foldl (fun acc c => acc * 10 + digitVal c) 0

/-- A fractional second in the value that the layout does not mention is accepted
after the seconds: a period or comma and at least one digit.  The first nine
digits give the nanoseconds (`parseNanoseconds`), the rest are dropped. -/
def getFraction (s : List Char) : Nat × List Char :=
  match s with
  | p :: d :: rest =>
    if (p = '.' ∨ p = ',') ∧ d.isDigit then
      let ds := (d :: rest).takeWhile Char.isDigit
      let used := ds.take 9
      (digitsVal used * 10 ^ (9 - used.length), (d :: rest).dropWhile Char.isDigit)
    else (0, s)
  | _ => (0, s)

/-- A range check of the parser: a value out of range ends the parse with an error. -/
def inRange (ok : Bool) : Option Unit := if ok then some () else none

/-- The date part `2006-01-02T` of the layout. -/
def parseDate (v : List Char) : Option ((Int × Nat × Nat) × List Char) :=
  (getYear v).bind fun yv =>
  (skip yv.2 '-').bind fun v =>
  (getnum v true).bind fun mv =>
  (inRange (decide (1 ≤ mv.1 ∧ mv.1 ≤ 12))).bind fun _ =>
  (skip mv.2 '-').bind fun v =>
  (getnum v true).bind fun dv =>
  (skip dv.2 'T').bind fun v =>
  some ((yv.1, mv.1, dv.1), v)

/-- The clock part `15:04:05` of the layout, with the fractional second a value may carry. -/
def parseClock (v : List Char) : Option ((Nat × Nat × Nat × Nat) × List Char) :=
  (getnum v false).bind fun hv =>
  (inRange (decide (hv.1 < 24))).bind fun _ =>
  (skip hv.2 ':').bind fun v =>
  (getnum v true).bind fun mv =>
  (inRange (decide (mv.1 < 60))).bind fun _ =>
  (skip mv.2 ':').bind fun v =>
  (getnum v true).bind fun sv =>
  (inRange (decide (sv.1 < 60))).bind fun _ =>
  some ((hv.1, mv.1, sv.1, (getFraction sv.2).1), (getFraction sv.2).2)

/-- The call `time.Parse("2006-01-02T15:04:05Z", s)`; `none` stands for a
`*time.ParseError`.  A value without zone information is read as UTC. -/
def timeParse (s : String) : Option Time :=
  (parseDate s.data).bind fun dv =>
  (parseClock dv.2).bind fun cv =>
  (skip cv.2 'Z').bind fun v =>
  (inRange (decide (v = []))).bind fun _ =>
  (inRange (decide (1 ≤ dv.1.2.2 ∧ dv.1.2.2 ≤ daysIn dv.1.2.1 dv.1.1))).bind fun _ =>
  some (Date dv.1.1 dv.1.2.1 dv.1.2.2 cv.1.1 cv.1.2.1 cv.1.2.2.1 cv.1.2.2.2)


/-- The civil year of the wall clock of `t` in its own location (`t.Year()`). -/
def Time.Year (t : Time) : Int := (absDate ((t.sec + t.offset) / 86400)).1

/-- The comparison `t.Equal(u)`: the same instant, whatever the locations. -/
def Time.Equal (t u : Time) : Bool := t.sec == u.sec && t.nsec == u.nsec

/-- The instant of `t` cut down to whole seconds, as a UTC time. -/
def Time.truncSeconds (t : Time) : Time := { sec := t.sec, nsec := 0, offset := 0 }

/-! ## google/uuid -/

/-- A `uuid.UUID`: an array of 16 bytes. -/
abbrev UUID := { l : List (Fin 256) // l.length = 16 }

/-- Lower-case hexadecimal text of a byte sequence (`hex.Encode`). -/
def encodeHex (bs : List (Fin 256)) : List Char :=
  bs.flatMap fun b => [Nat.digitChar (b.val / 16), Nat.digitChar (b.val % 16)]

/-- The canonical text `xxxxxxxx-xxxx-xxxx-xxxx-xxxxxxxxxxxx` of a UUID (`UUID.String`). -/
def UUID.String (u : UUID) : String :=
  String.mk (encodeHex (u.val.take 4) ++ ['-'] ++ encodeHex ((u.val.drop 4).take 2) ++ ['-']
    ++ encodeHex ((u.val.drop 6).take 2) ++ ['-'] ++ encodeHex ((u.val.drop 8).take 2) ++ ['-']
    ++ encodeHex (u.val.drop 10))

/-- Value of a hexadecimal digit, 255 for any other character (table `xvalues`). -/
def xvalue (c : Char) : Nat :=
  if '0' ≤ c ∧ c ≤ '9' then c.toNat - 48
  else if 'a' ≤ c ∧ c ≤ 'f' then c.toNat - 87
  else if 'A' ≤ c ∧ c ≤ 'F' then c.toNat - 55
  else 255

/-- The byte written by two hexadecimal digits (`xtob`). -/
def xtob (x1 x2 : Char) : Option (Fin 256) :=
  if xvalue x1 ≠ 255 ∧ xvalue x2 ≠ 255 then some (Fin.ofNat (xvalue x1 * 16 + xvalue x2)) else none

/-- Bytes written by a run of hexadecimal digit pairs. -/
def decodeHex : List Char → Option (List (Fin 256))
  | [] => some []
  | [_] => none
  | x1 :: x2 :: rest => (xtob x1 x2).bind fun b => (decodeHex rest).map fun bs => b :: bs

/-- A byte list of length 16 as a UUID. -/
def UUID.ofBytes (bs : List (Fin 256)) : Option UUID :=
  if h : bs.length = 16 then some ⟨bs, h⟩ else none

/-- The hyphenated form, read from the first 36 characters of `s`. -/
def parseHyphenated (s : List Char) : Option UUID :=
  if s.get? 8 = some '-' ∧ s.get? 13 = some '-' ∧ s.get? 18 = some '-' ∧ s.get? 23 = some '-' then
    (decodeHex (s.take 8 ++ (s.drop 9).take 4 ++ (s.drop 14).take 4 ++ (s.drop 19).take 4
      ++ (s.drop 24).take 12)).bind UUID.ofBytes
  else none

/-- The call `uuid.Parse(s)`; `none` stands for its error.  The length of the text
selects the form: 36 hyphenated, 45 with the prefix `urn:uuid:` in any case, 38
with one character before and after that are not looked at, 32 plain digits.
Go counts bytes: a text with a character outside ASCII is rejected in every
form, which the first test states, and for the others characters are bytes. -/
def uuidParse (s : String) : Option UUID :=
  if s.data.any (fun c => 128 ≤ c.toNat) then none
  else if s.data.length = 36 then parseHyphenated s.data
  else if s.data.length = 45 then
    if (s.data.take 9).map Char.toLower = "urn:uuid:".data then parseHyphenated (s.data.drop 9)
    else none
  else if s.data.length = 38 then parseHyphenated (s.data.drop 1)
  else if s.data.length = 32 then (decodeHex s.data).bind UUID.ofBytes
  else none

/-! ## `domain/entity` -/

/-- The struct `entity.Todo`. -/
structure Todo where
  ID : UUID
  Title : String
  Description : String
  Completed : Bool
  CreatedAt : Time
  UpdatedAt : Time
  deriving DecidableEq

/-- The struct `entity.TodoCreate`. -/
structure TodoCreate where
  Title : String
  Description : String
  deriving DecidableEq

/-- The struct `entity.TodoUpdate`. -/
structure TodoUpdate where
  Title : String
  Description : String
  Completed : Bool
  deriving DecidableEq

/-! ## DynamoDB values and client -/

/-- The union `types.AttributeValue` of the DynamoDB SDK. -/
inductive AttributeValue where
  | S (Value : String)
  | N (Value : String)
  | B (Value : List (Fin 256))
  | BOOL (Value : Bool)
  | NULL (Value : Bool)
  | SS (Value : List String)
  | NS (Value : List String)
  | BS (Value : List (List (Fin 256)))
  | L (Value : List AttributeValue)
  | M (Value : List (String × AttributeValue))

/-- An item or key, `map[string]types.AttributeValue`, as an association list. -/
abbrev Item := List (String × AttributeValue)

/-- A Go `error` value, by where it comes from. -/
inductive Error where
  | message (text : String)
  | uuid (value : String)
  | time (value : String)
  | client (text : String)
  deriving DecidableEq, Repr

/-- The calls of `*dynamodb.Client` the repository makes, over a backend state `σ`.
Each call fails with an error (network, throttling, permission, timeout) or
gives its output: nothing for a write, the scanned items, the item found if any. -/
structure Client (σ : Type) where
  PutItem : Item → σ → Option Error × σ
  Scan : σ → Except Error (List Item) × σ
  GetItem : Item → σ → Except Error (Option Item) × σ
  DeleteItem : Item → σ → Option Error × σ

/-- The value of attribute `name` when it is present and a string (`S`), the type
assertion `item[name].(*types.AttributeValueMemberS)`. -/
def stringAttr (item : Item) (name : String) : Option String :=
  match item.lookup name with
  | some (.S v) => some v
  | _ => none

/-- The value of attribute `name` when it is present and a boolean (`BOOL`), the type
assertion `item[name].(*types.AttributeValueMemberBOOL)`. -/
def boolAttr (item : Item) (name : String) : Option Bool :=
  match item.lookup name with
  | some (.BOOL v) => some v
  | _ => none

/-- The string of the key attribute `id` of an item or key, if it has one. -/
def keyOf (item : Item) : Option String := stringAttr item "id"

/-- The storage backend as a key-value table keyed by the string attribute `id`:
single-item write, read and delete and a full scan, none of which fails except a
write or read without a string key.  A write replaces the item of the same key;
a delete of a missing key succeeds. -/
def kvClient : Client (List Item) where
  PutItem item tbl :=
    match keyOf item with
    | none => (some (.client "ValidationException"), tbl)
    | some k => (none, tbl.filter (fun it => keyOf it != some k) ++ [item])
  Scan tbl := (.ok tbl, tbl)
  GetItem key tbl :=
    match keyOf key with
    | none => (.error (.client "ValidationException"), tbl)
    | some k => (.ok (tbl.find? (fun it => keyOf it == some k)), tbl)
  DeleteItem key tbl :=
    match keyOf key with
    | none => (some (.client "ValidationException"), tbl)
    | some k => (none, tbl.filter (fun it => keyOf it != some k))

/-! ## `infrastructure/dynamodb`: the repository -/

/-- A Go result `(*entity.Todo, error)`: `none` is the nil pointer, respectively no error. -/
abbrev TodoResult := Option Todo × Option Error

/-- The item literal that `Create` and `Update` both build from a todo. -/
def marshalTodo (todo : Todo) : Item :=
  [("id", .S todo.ID.String),
   ("title", .S todo.Title),
   ("description", .S todo.Description),
   ("completed", .BOOL todo.Completed),
   ("created_at", .S todo.CreatedAt.Format),
   ("updated_at", .S todo.UpdatedAt.Format)]

/-- The key literal `{"id": S(id.String())}` of `FindByID` and `Delete`. -/
def keyItem (id : UUID) : Item := [("id", .S id.String)]

/-- The method `TodoRepository.Create`: one `PutItem` of the item; the todo handed in
is returned when the write succeeds. -/
def Create {σ : Type} (c : Client σ) (todo : Todo) (s : σ) : TodoResult × σ :=
  match c.PutItem (marshalTodo todo) s with
  | (some err, s1) => ((none, some err), s1)
  | (none, s1) => ((some todo, none), s1)

/-- The method `TodoRepository.unmarshalTodo`: it returns either an error or a todo.
Each attribute is looked up and type-asserted in turn (`stringAttr`, `boolAttr`),
the identifier and the two timestamps are parsed. -/
def unmarshalTodo (item : Item) : Except Error Todo :=
  match stringAttr item "id" with
  | none => .error (.message "invalid id type")
  | some idStr =>
    match uuidParse idStr with
    | none => .error (.uuid idStr)
    | some id =>
      match stringAttr item "title" with
      | none => .error (.message "invalid title type")
      | some title =>
        match stringAttr item "description" with
        | none => .error (.message "invalid description type")
        | some description =>
          match boolAttr item "completed" with
          | none => .error (.message "invalid completed type")
          | some completed =>
            match stringAttr item "created_at" with
            | none => .error (.message "invalid created_at type")
            | some createdAtStr =>
              match timeParse createdAtStr with
              | none => .error (.time createdAtStr)
              | some createdAt =>
                match stringAttr item "updated_at" with
                | none => .error (.message "invalid updated_at type")
                | some updatedAtStr =>
                  match timeParse updatedAtStr with
                  | none => .error (.time updatedAtStr)
                  | some updatedAt =>
                    .ok { ID := id, Title := title, Description := description,
                          Completed := completed, CreatedAt := createdAt, UpdatedAt := updatedAt }

/-- The loop of `FindAll`: items are decoded in order and appended to `todos`; the
first item that fails to decode ends the call with its error and a nil slice. -/
def unmarshalAll : List Item → List Todo → Option (List Todo) × Option Error
  | [], todos => (some todos, none)
  | item :: rest, todos =>
    match unmarshalTodo item with
    | .error err => (none, some err)
    | .ok todo => unmarshalAll rest (todos ++ [todo])

/-- The method `TodoRepository.FindAll`: one `Scan`, then the decoding loop, which
starts from an empty slice that is not nil. -/
def FindAll {σ : Type} (c : Client σ) (s : σ) : (Option (List Todo) × Option Error) × σ :=
  match c.Scan s with
  | (.error err, s1) => ((none, some err), s1)
  | (.ok items, s1) => (unmarshalAll items [], s1)

/-- The method `TodoRepository.FindByID`: one `GetItem`; a nil item in the output
gives `(nil, nil)`, an item is decoded. -/
def FindByID {σ : Type} (c : Client σ) (id : UUID) (s : σ) : TodoResult × σ :=
  match c.GetItem (keyItem id) s with
  | (.error err, s1) => ((none, some err), s1)
  | (.ok none, s1) => ((none, none), s1)
  | (.ok (some item), s1) =>
    match unmarshalTodo item with
    | .error err => ((none, some err), s1)
    | .ok todo => ((some todo, none), s1)

/-- The method `TodoRepository.Update`: one `PutItem` of the item; the todo handed in
is returned when the write succeeds. -/
def Update {σ : Type} (c : Client σ) (todo : Todo) (s : σ) : TodoResult × σ :=
  match c.PutItem (marshalTodo todo) s with
  | (some err, s1) => ((none, some err), s1)
  | (none, s1) => ((some todo, none), s1)

/-- The method `TodoRepository.Delete`: one `DeleteItem`, whose error is returned. -/
def Delete {σ : Type} (c : Client σ) (id : UUID) (s : σ) : Option Error × σ :=
  c.DeleteItem (keyItem id) s

/-! ## `domain/repository` and `usecase/todo` -/

/-- The interface `repository.TodoRepository`, over a state `σ` (the two accessors
`GetClient` and `GetTableName` are not part of the data access). -/
structure TodoRepository (σ : Type) where
  Create : Todo → σ → TodoResult × σ
  FindAll : σ → (Option (List Todo) × Option Error) × σ
  FindByID : UUID → σ → TodoResult × σ
  Update : Todo → σ → TodoResult × σ
  Delete : UUID → σ → Option Error × σ

/-- The DynamoDB implementation of the interface (`NewTodoRepository`). -/
def NewTodoRepository {σ : Type} (c : Client σ) : TodoRepository σ where
  Create := TodoApi.Create c
  FindAll := TodoApi.FindAll c
  FindByID := TodoApi.FindByID c
  Update := TodoApi.Update c
  Delete := TodoApi.Delete c

/-- A call made on the repository interface. -/
inductive Call where
  | Create (todo : Todo)
  | FindAll
  | FindByID (id : UUID)
  | Update (todo : Todo)
  | Delete (id : UUID)
  deriving DecidableEq

/-- How a call ends: it returns a value, or it panics (a nil pointer dereference). -/
inductive Outcome (α : Type) where
  | returned (value : α)
  | panicked
  deriving DecidableEq

/-- One run of a use-case method: how it ended, the repository calls it made in
order, and the state it left. -/
structure Run (σ α : Type) where
  outcome : Outcome α
  calls : List Call
  state : σ

/-- The method `TodoUseCase.CreateTodo`; `now` is the reading of `time.Now()` and
`newID` the value of `uuid.New()`. -/
def CreateTodo {σ : Type} (repo : TodoRepository σ) (now : Time) (newID : UUID) (input : TodoCreate)
    (s : σ) : Run σ TodoResult :=
  let todo : Todo :=
    { ID := newID, Title := input.Title, Description := input.Description, Completed := false,
      CreatedAt := now, UpdatedAt := now }
  match repo.Create todo s with
  | (r, s1) => { outcome := .returned r, calls := [.Create todo], state := s1 }

/-- The method `TodoUseCase.GetTodos`. -/
def GetTodos {σ : Type} (repo : TodoRepository σ) (s : σ) :
    Run σ (Option (List Todo) × Option Error) :=
  match repo.FindAll s with
  | (r, s1) => { outcome := .returned r, calls := [.FindAll], state := s1 }

/-- The method `TodoUseCase.GetTodo`. -/
def GetTodo {σ : Type} (repo : TodoRepository σ) (id : UUID) (s : σ) : Run σ TodoResult :=
  match repo.FindByID id s with
  | (r, s1) => { outcome := .returned r, calls := [.FindByID id], state := s1 }

/-- The fields `UpdateTodo` assigns to the todo it fetched. -/
def applyUpdate (todo : Todo) (input : TodoUpdate) (now : Time) : Todo :=
  { todo with
    Title := if input.Title ≠ "" then input.Title else todo.Title
    Description := if input.Description ≠ "" then input.Description else todo.Description
    Completed := input.Completed
    UpdatedAt := now }

/-- The method `TodoUseCase.UpdateTodo`; `now` is the reading of `time.Now()`.  Only
the error of `FindByID` is tested: with a nil todo and no error the assignment
`todo.Completed = input.Completed` (or the one to `Title` or `Description` before
it) dereferences nil and the call panics. -/
def UpdateTodo {σ : Type} (repo : TodoRepository σ) (now : Time) (id : UUID) (input : TodoUpdate)
    (s : σ) : Run σ TodoResult :=
  match repo.FindByID id s with
  | ((_, some err), s1) => { outcome := .returned (none, some err), calls := [.FindByID id], state := s1 }
  | ((none, none), s1) => { outcome := .panicked, calls := [.FindByID id], state := s1 }
  | ((some todo, none), s1) =>
    match repo.Update (applyUpdate todo input now) s1 with
    | (r, s2) =>
      { outcome := .returned r, calls := [.FindByID id, .Update (applyUpdate todo input now)],
        state := s2 }

/-- The method `TodoUseCase.DeleteTodo`. -/
def DeleteTodo {σ : Type} (repo : TodoRepository σ) (id : UUID) (s : σ) : Run σ (Option Error) :=
  match repo.Delete id s with
  | (r, s1) => { outcome := .returned r, calls := [.Delete id], state := s1 }

/-- A sample identifier, `00010203-0405-0607-0809-0a0b0c0d0e0f`. -/
def sampleID : UUID := ⟨[0, 1, 2, 3, 4, 5, 6, 7, 8, 9, 10, 11, 12, 13, 14, 15], rfl⟩

deriving instance DecidableEq for Except

/-- A timestamp the storage format holds exactly: whole seconds, zone UTC, and a
year of four digits. -/
def Time.InFormat (t : Time) : Prop :=
  t.nsec = 0 ∧ t.offset = 0 ∧ 0 ≤ t.Year ∧ t.Year ≤ 9999

instance (t : Time) : Decidable t.InFormat := by
  unfold Time.InFormat; infer_instance

/-- Midnight UTC of 1 January 2024. -/
def newYear2024 : Time := { sec := 1704067200, nsec := 0, offset := 0 }

/-- The same instant as `newYear2024` on a clock in the zone +09:00. -/
def newYear2024Tokyo : Time := { sec := 1704067200, nsec := 0, offset := 32400 }

/-- A stored todo `{title: "A", description: "B", completed: false}`. -/
def sampleTodo : Todo :=
  { ID := sampleID, Title := "A", Description := "B", Completed := false,
    CreatedAt := newYear2024, UpdatedAt := newYear2024 }

/-- A todo created at midnight UTC of 1 January 10000. -/
def todoYear10000 : Todo :=
  { sampleTodo with CreatedAt := ⟨253402300800, 0, 0⟩, UpdatedAt := ⟨253402300800, 0, 0⟩ }

/-- A todo created at `newYear2024` by a process whose local zone is +09:00. -/
def todoTokyo : Todo :=
  { sampleTodo with CreatedAt := newYear2024Tokyo, UpdatedAt := newYear2024Tokyo }

/-- A todo whose timestamps carry half a second, as a reading of `time.Now()` does. -/
def todoSubSecond : Todo :=
  { sampleTodo with CreatedAt := ⟨1704067200, 500000000, 0⟩, UpdatedAt := ⟨1704067200, 500000000, 0⟩ }

/-- The comparison `t.Before(u)`: the instant of `t` is earlier than that of `u`. -/
def Time.Before (t u : Time) : Bool :=
  decide (t.sec < u.sec) || (t.sec == u.sec && decide (t.nsec < u.nsec))

/-- The order `created_at ≤ updated_at` of a todo, as instants: the update time is
not before the creation time. -/
def Todo.Ordered (t : Todo) : Bool := !(t.UpdatedAt.Before t.CreatedAt)

/-- One second after `newYear2024`, on a clock in the zone +09:00. -/
def newYear2024TokyoLater : Time := { sec := 1704067201, nsec := 0, offset := 32400 }

/-- One second after `newYear2024`, on a clock in UTC. -/
def newYear2024Later : Time := { sec := 1704067201, nsec := 0, offset := 0 }

/-! ## `interface/http`: the handler of `GET /todos/:id` -/

/-- The body of a response: the object `gin.H{"error": message}` or a todo. -/
inductive Body where
  | error (message : String)
  | todo (todo : Todo)
  deriving DecidableEq

/-- One response written on the gin context by `c.JSON(status, body)`. -/
structure Response where
  status : Nat
  body : Body
  deriving DecidableEq

/-- The method `TodoHandler.GetTodo`; `param` is the path parameter `c.Param("id")`.
The result lists the responses written, in order; log entries are not modelled. -/
def TodoHandler.GetTodo {σ : Type} (repo : TodoRepository σ) (param : String) (s : σ) :
    Run σ (List Response) :=
  match uuidParse param with
  | none => { outcome := .returned [⟨400, .error "Invalid todo ID"⟩], calls := [], state := s }
  | some id =>
    match TodoApi.GetTodo repo id s with
    | ⟨.panicked, calls, s1⟩ => { outcome := .panicked, calls := calls, state := s1 }
    | ⟨.returned (_, some _), calls, s1⟩ =>
      { outcome := .returned [⟨500, .error "Failed to get todo"⟩], calls := calls, state := s1 }
    | ⟨.returned (none, none), calls, s1⟩ =>
      { outcome := .returned [⟨404, .error "Todo not found"⟩], calls := calls, state := s1 }
    | ⟨.returned (some todo, none), calls, s1⟩ =>
      { outcome := .returned [⟨200, .todo todo⟩], calls := calls, state := s1 }

/-- A reading of a clock in UTC whose year has four digits. -/
def Time.OnUTCClock (t : Time) : Prop := t.offset = 0 ∧ 0 ≤ t.Year ∧ t.Year ≤ 9999

instance (t : Time) : Decidable t.OnUTCClock := by
  unfold Time.OnUTCClock; infer_instance

/-- A use-case call that writes to the store, with the clock reading it takes. -/
inductive Op where
  | create (now : Time) (newID : UUID) (input : TodoCreate)
  | update (now : Time) (id : UUID) (input : TodoUpdate)

/-- The clock reading of a call. -/
def Op.now : Op → Time
  | .create now _ _ => now
  | .update now _ _ => now

/-- The key-value table after one call of the use case over the DynamoDB repository. -/
def stepTable (tbl : List Item) : Op → List Item
  | .create now newID input => (CreateTodo (NewTodoRepository kvClient) now newID input tbl).state
  | .update now id input => (UpdateTodo (NewTodoRepository kvClient) now id input tbl).state

/-- The key-value table after a sequence of calls. -/
def runTable (tbl : List Item) (ops : List Op) : List Item := ops.foldl stepTable tbl

/-- The calls are made at readings of a UTC clock with four-digit years that do
not go back, starting not before `c`. -/
def clockFrom (c : Time) : List Op → Prop
  | [] => True
  | op :: rest => op.now.OnUTCClock ∧ op.now.Before c = false ∧ clockFrom op.now rest

/-- An item written through the mapper from a todo with UTC timestamps of four-digit
years, in order, created not after the reading `c`. -/
def StoredBy (c : Time) (item : Item) : Prop :=
  ∃ r : Todo, item = marshalTodo r ∧ r.CreatedAt.OnUTCClock ∧ r.UpdatedAt.OnUTCClock ∧
    r.Ordered = true ∧ c.Before r.CreatedAt = false

/-- An item like that of `sampleTodo` but without the attribute `completed`. -/
def itemWithoutCompleted : Item :=
  [("id", .S sampleID.String), ("title", .S "A"), ("description", .S "B"),
   ("created_at", .S "2024-01-01T00:00:00Z"), ("updated_at", .S "2024-01-01T00:00:00Z")]

/-- An item like that of `sampleTodo` but with the attribute `completed` held as the
string `true` instead of a boolean. -/
def itemStringCompleted : Item :=
  [("id", .S sampleID.String), ("title", .S "A"), ("description", .S "B"),
   ("completed", .S "true"),
   ("created_at", .S "2024-01-01T00:00:00Z"), ("updated_at", .S "2024-01-01T00:00:00Z")]

/-! ## Lemmas and theorems -/

/-! ### The calendar: `absDate` and `Date` -/

set_option maxRecDepth 100000 in
/-- For a day of the year within the year, `monthDay` gives a month from 1 to 12 and a
day within that month, and `daysBefore` with the leap-day correction maps them back. -/
theorem monthDay_spec : ∀ (leap : Bool) (d : Nat), d < 365 + leap.toNat →
    1 ≤ (monthDay leap d).1 ∧ (monthDay leap d).1 ≤ 12 ∧ 1 ≤ (monthDay leap d).2 ∧
    (monthDay leap d).2 ≤ 31 ∧
    (monthDay leap d).2 ≤ (if (monthDay leap d).1 = 2 ∧ leap then 29
        else daysBefore.getD (monthDay leap d).1 0 - daysBefore.getD ((monthDay leap d).1 - 1) 0) ∧
    daysBefore.getD ((monthDay leap d).1 - 1) 0
      + (if leap && (monthDay leap d).1 ≥ 3 then 1 else 0) + ((monthDay leap d).2 - 1) = d := by
  intro leap
  cases leap
  · simp only [Bool.toNat_false, Nat.add_zero]; decide
  · simp only [Bool.toNat_true]; decide

/-- The cycle counts `yearDay` cuts off are in range and add up to the day number;
the rest is a day of the year, 365 only at the end of a four-year cycle that is
not cut short by a century. -/
theorem cycles_bounds (r n100 d2 n4 d3 n1 d : Nat) (hr : r < 146097)
    (h100 : n100 = r / 36524 - r / 36524 / 4) (hd2 : d2 = r - 36524 * n100)
    (hn4 : n4 = d2 / 1461) (hd3 : d3 = d2 - 1461 * n4)
    (hn1 : n1 = d3 / 365 - d3 / 365 / 4) (hd : d = d3 - 365 * n1) :
    n100 ≤ 3 ∧ n4 ≤ 24 ∧ n1 ≤ 3 ∧ r = 36524 * n100 + 1461 * n4 + 365 * n1 + d ∧
    (d ≤ 364 ∨ (d = 365 ∧ n1 = 3 ∧ (n4 < 24 ∨ n100 = 3))) := by
  have a1 : n100 ≤ 3 := by omega
  have a2 : d2 + 36524 * n100 = r := by omega
  have a3 : d2 ≤ 36524 := by omega
  have a3' : n100 < 3 → d2 < 36524 := by omega
  have a4 : n4 ≤ 24 := by omega
  have a5 : d3 + 1461 * n4 = d2 := by omega
  have a6 : d3 < 1461 := by omega
  have a7 : n1 ≤ 3 := by omega
  have a8 : d + 365 * n1 = d3 := by omega
  refine ⟨a1, a4, a7, by omega, ?_⟩
  omega

/-- The leap-year rule in terms of the cycle counts. -/
theorem isLeap_cycles (n400 : Int) (n100 n4 n1 : Nat) (h100 : n100 ≤ 3) (h4 : n4 ≤ 24)
    (h1 : n1 ≤ 3) :
    isLeap (400 * n400 + 100 * n100 + 4 * n4 + n1 + 1) = decide (n1 = 3 ∧ (n4 < 24 ∨ n100 = 3)) := by
  simp only [isLeap]
  rw [Bool.eq_iff_iff]
  simp only [Bool.and_eq_true, Bool.or_eq_true, beq_iff_eq, bne_iff_ne, ne_eq, decide_eq_true_eq]
  omega

/-- The day number `daysSinceEpoch` gives for a year written by its cycle counts. -/
theorem daysSinceEpoch_cycles (n400 : Int) (n100 n4 n1 : Nat) (h100 : n100 ≤ 3) (h4 : n4 ≤ 24)
    (h1 : n1 ≤ 3) :
    daysSinceEpoch (400 * n400 + 100 * n100 + 4 * n4 + n1 + 1)
      = 146097 * n400 + 36524 * n100 + 1461 * n4 + 365 * n1 := by
  simp only [daysSinceEpoch]
  omega

/-- The result of `yearDay` written by its cycle counts. -/
theorem yearDay_cycles (days : Int) : ∃ (n400 : Int) (n100 n4 n1 d : Nat),
    yearDay days = (400 * n400 + 100 * n100 + 4 * n4 + n1 + 1, d) ∧
    n100 ≤ 3 ∧ n4 ≤ 24 ∧ n1 ≤ 3 ∧
    days + unixEpochDays = 146097 * n400 + 36524 * n100 + 1461 * n4 + 365 * n1 + d ∧
    (d ≤ 364 ∨ (d = 365 ∧ n1 = 3 ∧ (n4 < 24 ∨ n100 = 3))) := by
  have hr : ((days + unixEpochDays) % 146097).toNat < 146097 := by
    simp only [unixEpochDays]; omega
  obtain ⟨b1, b2, b3, b4, b5⟩ := cycles_bounds _ _ _ _ _ _ _ hr rfl rfl rfl rfl rfl rfl
  refine ⟨(days + unixEpochDays) / 146097, _, _, _, _, rfl, b1, b2, b3, ?_, b5⟩
  have h0 : days + unixEpochDays
      = 146097 * ((days + unixEpochDays) / 146097) + ((days + unixEpochDays) % 146097).toNat := by
    omega
  rw [b4] at h0
  omega

/-- The day of the year `yearDay` returns lies within the year, and `daysSinceEpoch`
of the year plus that day is the day number. -/
theorem yearDay_spec (days : Int) :
    (yearDay days).2 < 365 + (isLeap (yearDay days).1).toNat ∧
    daysSinceEpoch (yearDay days).1 + (yearDay days).2 - unixEpochDays = days := by
  obtain ⟨n400, n100, n4, n1, d, he, b1, b2, b3, b4, b5⟩ := yearDay_cycles days
  rw [he]
  simp only []
  rw [isLeap_cycles _ _ _ _ b1 b2 b3, daysSinceEpoch_cycles _ _ _ _ b1 b2 b3]
  constructor
  · by_cases hl : n1 = 3 ∧ (n4 < 24 ∨ n100 = 3)
    · rw [decide_eq_true hl, Bool.toNat_true]; omega
    · rw [decide_eq_false hl, Bool.toNat_false]; omega
  · omega

/-- The civil date `absDate` returns is a valid date, and `Date` maps it back to the day. -/
theorem absDate_spec (days : Int) :
    1 ≤ (absDate days).2.1 ∧ (absDate days).2.1 ≤ 12 ∧ 1 ≤ (absDate days).2.2 ∧
    (absDate days).2.2 ≤ 31 ∧
    (absDate days).2.2 ≤ daysIn (absDate days).2.1 (absDate days).1 ∧
    daysSinceEpoch (absDate days).1 + daysBefore.getD ((absDate days).2.1 - 1) 0
      + (if isLeap (absDate days).1 && (absDate days).2.1 ≥ 3 then 1 else 0)
      + (((absDate days).2.2 - 1 : Nat) : Int) - unixEpochDays = days := by
  obtain ⟨h1, h2⟩ := yearDay_spec days
  obtain ⟨m1, m2, m3, m4, m5, m6⟩ := monthDay_spec _ _ h1
  simp only [absDate, daysIn]
  refine ⟨m1, m2, m3, m4, m5, ?_⟩
  have h6 : ((daysBefore.getD ((monthDay (isLeap (yearDay days).1) (yearDay days).2).1 - 1) 0
      + (if isLeap (yearDay days).1 && (monthDay (isLeap (yearDay days).1) (yearDay days).2).1 ≥ 3 then 1 else 0)
      + ((monthDay (isLeap (yearDay days).1) (yearDay days).2).2 - 1) : Nat) : Int)
        = ((yearDay days).2 : Int) := by rw [m6]
  push_cast at h6
  omega

/-! ### Timestamps: `Format` and `time.Parse` -/

/-- The characters of the digits 0 to 9 are decimal digits. -/
theorem isDigit_digitChar : ∀ n : Nat, n < 10 → (Nat.digitChar n).isDigit = true := by decide

/-- The value of the character of a digit is the digit. -/
theorem digitVal_digitChar : ∀ n : Nat, n < 10 → digitVal (Nat.digitChar n) = n := by decide

/-- A digit character is none of the separators the parser looks for. -/
theorem digitChar_ne : ∀ n : Nat, n < 10 →
    Nat.digitChar n ≠ '-' ∧ Nat.digitChar n ≠ '.' ∧ Nat.digitChar n ≠ ',' := by decide

/-- Two digit characters are read by `getnum` as their two-digit number. -/
theorem getnum_two (a b : Nat) (ha : a < 10) (hb : b < 10) (rest : List Char) (fixed : Bool) :
    getnum (Nat.digitChar a :: Nat.digitChar b :: rest) fixed = some (a * 10 + b, rest) := by
  simp [getnum, isDigit_digitChar _ ha, isDigit_digitChar _ hb, digitVal_digitChar _ ha,
    digitVal_digitChar _ hb]

/-- The two-digit rendering of a number below 100. -/
theorem appendInt_two (n : Nat) (h : n < 100) :
    appendInt (n : Int) 2 = [Nat.digitChar (n / 10), Nat.digitChar (n % 10)] := by
  have h0 : ¬ ((n : Int) < 0) := by omega
  simp [appendInt, h, h0]

/-- The four-digit rendering of a year from 0 to 9999. -/
theorem appendInt_four (y : Int) (h0 : 0 ≤ y) (h1 : y ≤ 9999) :
    appendInt y 4 = [Nat.digitChar (y.natAbs / 1000), Nat.digitChar (y.natAbs / 100 % 10),
      Nat.digitChar (y.natAbs / 10 % 10), Nat.digitChar (y.natAbs % 10)] := by
  have h2 : ¬ (y < 0) := by omega
  have h3 : y.natAbs < 10000 := by omega
  simp [appendInt, h2, h3]

/-- Four digit characters are read by `getYear` as their four-digit number. -/
theorem getYear_four (a b c d : Nat) (ha : a < 10) (hb : b < 10) (hc : c < 10) (hd : d < 10)
    (rest : List Char) :
    getYear (Nat.digitChar a :: Nat.digitChar b :: Nat.digitChar c :: Nat.digitChar d :: rest)
      = some (((a * 1000 + b * 100 + c * 10 + d : Nat) : Int), rest) := by
  simp [getYear, isDigit_digitChar, digitVal_digitChar, ha, hb, hc, hd]


/-- A rendered timestamp with valid civil fields and a four-digit year parses to the
`Date` of those fields. -/
theorem parse_rendered (y m d h mi s : Nat) (hy : y ≤ 9999) (hm1 : 1 ≤ m) (hm : m ≤ 12)
    (hd1 : 1 ≤ d) (hd : d ≤ 31) (hdm : d ≤ daysIn m (y : Int)) (hh : h < 24) (hmi : mi < 60) (hs : s < 60) :
    timeParse (String.mk (appendInt (y : Int) 4 ++ ['-'] ++ appendInt m 2 ++ ['-'] ++ appendInt d 2
      ++ ['T'] ++ appendInt h 2 ++ [':'] ++ appendInt mi 2 ++ [':'] ++ appendInt s 2 ++ ['Z']))
      = some (Date y m d h mi s 0) := by
  rw [appendInt_four _ (by omega) (by omega), appendInt_two m (by omega), appendInt_two d (by omega),
    appendInt_two h (by omega), appendInt_two mi (by omega), appendInt_two s (by omega)]
  have e1 : (y : Int).natAbs = y := Int.natAbs_ofNat y
  rw [e1]
  have ey : y / 1000 * 1000 + y / 100 % 10 * 100 + y / 10 % 10 * 10 + y % 10 = y := by omega
  have em : m / 10 * 10 + m % 10 = m := by omega
  have ed : d / 10 * 10 + d % 10 = d := by omega
  have eh : h / 10 * 10 + h % 10 = h := by omega
  have emi : mi / 10 * 10 + mi % 10 = mi := by omega
  have es : s / 10 * 10 + s % 10 = s := by omega
  simp only [timeParse, parseDate, parseClock, List.cons_append, List.nil_append, List.append_assoc]
  rw [getYear_four _ _ _ _ (by omega) (by omega) (by omega) (by omega)]
  simp only [Option.bind_some, Option.some_bind, skip, if_true, ite_true]
  rw [getnum_two _ _ (show m / 10 < 10 by omega) (show m % 10 < 10 by omega)]
  simp only [Option.bind_some, Option.some_bind, skip, if_true, ite_true, inRange, em, hm1, hm,
    and_self, decide_True]
  rw [getnum_two _ _ (show d / 10 < 10 by omega) (show d % 10 < 10 by omega)]
  simp only [Option.bind_some, Option.some_bind, skip, if_true, ite_true, ed]
  rw [getnum_two _ _ (show h / 10 < 10 by omega) (show h % 10 < 10 by omega)]
  simp only [Option.bind_some, Option.some_bind, skip, if_true, ite_true, inRange, eh, hh,
    decide_True]
  rw [getnum_two _ _ (show mi / 10 < 10 by omega) (show mi % 10 < 10 by omega)]
  simp only [Option.bind_some, Option.some_bind, skip, if_true, ite_true, inRange, emi, hmi,
    decide_True]
  rw [getnum_two _ _ (show s / 10 < 10 by omega) (show s % 10 < 10 by omega)]
  simp only [Option.bind_some, Option.some_bind, skip, if_true, ite_true, inRange, es, hs,
    decide_True, getFraction, ey, hd1, hdm, and_self]


/-- Parsing the rendering of `t` gives the UTC time whose instant is the wall-clock
reading of `t`: the instant of `t` shifted by its zone offset, without nanoseconds. -/
theorem timeParse_Format (t : Time) (h0 : 0 ≤ t.Year) (h1 : t.Year ≤ 9999) :
    timeParse t.Format = some { sec := t.sec + t.offset, nsec := 0, offset := 0 } := by
  obtain ⟨m1, m2, d1, d2, d3, hday⟩ := absDate_spec ((t.sec + t.offset) / 86400)
  simp only [Time.Year] at h0 h1
  have hs : ((t.sec + t.offset) % 86400).toNat < 86400 := by omega
  obtain ⟨y, hy⟩ : ∃ y : Nat, (absDate ((t.sec + t.offset) / 86400)).1 = (y : Int) :=
    ⟨_, (Int.toNat_of_nonneg h0).symm⟩
  rw [hy] at d3 hday h1
  have hp := parse_rendered y _ _ (((t.sec + t.offset) % 86400).toNat / 3600)
    (((t.sec + t.offset) % 86400).toNat % 3600 / 60) (((t.sec + t.offset) % 86400).toNat % 3600 % 60)
    (by omega) m1 m2 d1 d2 d3 (by omega) (by omega) (by omega)
  simp only [Time.Format, absClock]
  rw [hy, hp]
  simp only [Date, Option.some.injEq, Time.mk.injEq, and_true]
  omega


/-! ### Identifiers: `String` and `uuid.Parse` -/

/-- The value of the character of a hexadecimal digit is the digit. -/
theorem xvalue_digitChar : ∀ n : Nat, n < 16 → xvalue (Nat.digitChar n) = n := by decide

/-- The characters of the hexadecimal digits are ASCII. -/
theorem hexDigit_ascii : ∀ n : Nat, n < 16 → ¬ (128 ≤ (Nat.digitChar n).toNat) := by decide

/-- The two hexadecimal digits written for a byte read back as the byte. -/
theorem xtob_digits (b : Fin 256) :
    xtob (Nat.digitChar (b.val / 16)) (Nat.digitChar (b.val % 16)) = some b := by
  have h1 := xvalue_digitChar (b.val / 16) (by omega)
  have h2 := xvalue_digitChar (b.val % 16) (by omega)
  simp only [xtob, h1, h2]
  rw [if_pos (by omega)]
  congr 1
  apply Fin.ext
  simp only [Fin.ofNat, Nat.succ_eq_add_one]
  omega

/-- Parsing the canonical text of a UUID gives the UUID back. -/
theorem uuidParse_String (u : UUID) : uuidParse u.String = some u := by
  obtain ⟨l, hl⟩ := u
  iterate 16 (rcases l with _ | ⟨_, l⟩; · simp at hl)
  rcases l with _ | ⟨_, l⟩
  swap
  · simp at hl
  rename_i b0 b1 b2 b3 b4 b5 b6 b7 b8 b9 b10 b11 b12 b13 b14 b15
  have a0 := hexDigit_ascii (b0.val / 16) (by omega)
  have a0' := hexDigit_ascii (b0.val % 16) (by omega)
  have a1 := hexDigit_ascii (b1.val / 16) (by omega)
  have a1' := hexDigit_ascii (b1.val % 16) (by omega)
  have a2 := hexDigit_ascii (b2.val / 16) (by omega)
  have a2' := hexDigit_ascii (b2.val % 16) (by omega)
  have a3 := hexDigit_ascii (b3.val / 16) (by omega)
  have a3' := hexDigit_ascii (b3.val % 16) (by omega)
  have a4 := hexDigit_ascii (b4.val / 16) (by omega)
  have a4' := hexDigit_ascii (b4.val % 16) (by omega)
  have a5 := hexDigit_ascii (b5.val / 16) (by omega)
  have a5' := hexDigit_ascii (b5.val % 16) (by omega)
  have a6 := hexDigit_ascii (b6.val / 16) (by omega)
  have a6' := hexDigit_ascii (b6.val % 16) (by omega)
  have a7 := hexDigit_ascii (b7.val / 16) (by omega)
  have a7' := hexDigit_ascii (b7.val % 16) (by omega)
  have a8 := hexDigit_ascii (b8.val / 16) (by omega)
  have a8' := hexDigit_ascii (b8.val % 16) (by omega)
  have a9 := hexDigit_ascii (b9.val / 16) (by omega)
  have a9' := hexDigit_ascii (b9.val % 16) (by omega)
  have a10 := hexDigit_ascii (b10.val / 16) (by omega)
  have a10' := hexDigit_ascii (b10.val % 16) (by omega)
  have a11 := hexDigit_ascii (b11.val / 16) (by omega)
  have a11' := hexDigit_ascii (b11.val % 16) (by omega)
  have a12 := hexDigit_ascii (b12.val / 16) (by omega)
  have a12' := hexDigit_ascii (b12.val % 16) (by omega)
  have a13 := hexDigit_ascii (b13.val / 16) (by omega)
  have a13' := hexDigit_ascii (b13.val % 16) (by omega)
  have a14 := hexDigit_ascii (b14.val / 16) (by omega)
  have a14' := hexDigit_ascii (b14.val % 16) (by omega)
  have a15 := hexDigit_ascii (b15.val / 16) (by omega)
  have a15' := hexDigit_ascii (b15.val % 16) (by omega)
  simp only [uuidParse, UUID.String, encodeHex, List.take, List.drop, List.flatMap_cons,
    List.flatMap_nil, List.cons_append, List.nil_append, List.append_nil, List.any_cons,
    List.any_nil, decide_eq_true_eq, Bool.or_eq_true, Bool.or_false, List.length_cons,
    List.length_nil]
  rw [if_neg (by simp only [not_or]; exact ⟨a0, a0', a1, a1', a2, a2', a3, a3', by decide,
    a4, a4', a5, a5', by decide, a6, a6', a7, a7', by decide, a8, a8', a9, a9', by decide,
    a10, a10', a11, a11', a12, a12', a13, a13', a14, a14', a15, a15'⟩)]
  rw [if_pos trivial]
  simp only [parseHyphenated, List.get?, List.take, List.drop, List.cons_append, List.nil_append,
    and_self, if_true, decodeHex, xtob_digits, Option.bind_some, Option.some_bind, Option.map_some',
    Option.map, UUID.ofBytes, List.length_cons, List.length_nil, Option.bind, dite_true]


/-! ### The item mapper and the use case -/

/-- Decoding the item built from a todo whose wall-clock years have four digits:
the identifier, texts and flag come back as they were, each timestamp comes back
as the UTC time that reads like the wall clock of the original. -/
theorem unmarshalTodo_marshalTodo (t : Todo) (hc0 : 0 ≤ t.CreatedAt.Year)
    (hc1 : t.CreatedAt.Year ≤ 9999) (hu0 : 0 ≤ t.UpdatedAt.Year) (hu1 : t.UpdatedAt.Year ≤ 9999) :
    unmarshalTodo (marshalTodo t) = .ok
      { t with CreatedAt := ⟨t.CreatedAt.sec + t.CreatedAt.offset, 0, 0⟩
               UpdatedAt := ⟨t.UpdatedAt.sec + t.UpdatedAt.offset, 0, 0⟩ } := by
  simp [unmarshalTodo, marshalTodo, stringAttr, boolAttr, List.lookup, uuidParse_String, timeParse_Format _ hc0 hc1,
    timeParse_Format _ hu0 hu1]

/-- A timestamp the format holds exactly is the UTC time of its own wall clock. -/
theorem Time.eq_of_inFormat (t : Time) (h : t.InFormat) :
    (⟨t.sec + t.offset, 0, 0⟩ : Time) = t := by
  obtain ⟨s, n, o⟩ := t
  obtain ⟨h1, h2, -, -⟩ := h
  simp only at h1 h2
  subst h1 h2
  simp

/-- With a nil todo and no error from `FindByID`, `UpdateTodo` panics after that one call. -/
theorem UpdateTodo_of_nil {σ : Type} (repo : TodoRepository σ) (now : Time) (id : UUID)
    (input : TodoUpdate) (s s1 : σ) (h : repo.FindByID id s = ((none, none), s1)) :
    (UpdateTodo repo now id input s).outcome = .panicked ∧
    (UpdateTodo repo now id input s).calls = [.FindByID id] := by
  simp [UpdateTodo, h]

/-- With a todo from `FindByID`, `UpdateTodo` makes the two calls `FindByID` and
`Update` of the merged todo and returns what `Update` returned. -/
theorem UpdateTodo_of_found {σ : Type} (repo : TodoRepository σ) (now : Time) (id : UUID)
    (input : TodoUpdate) (s s1 : σ) (todo : Todo)
    (h : repo.FindByID id s = ((some todo, none), s1)) :
    (UpdateTodo repo now id input s).outcome
      = .returned (repo.Update (applyUpdate todo input now) s1).1 ∧
    (UpdateTodo repo now id input s).calls
      = [.FindByID id, .Update (applyUpdate todo input now)] ∧
    (UpdateTodo repo now id input s).state = (repo.Update (applyUpdate todo input now) s1).2 := by
  simp [UpdateTodo, h]

/-- C1 (code defect): `UpdateTodo` on an identifier the table does not hold.
`FindByID` reports the not-found sentinel `(nil, nil)`; `UpdateTodo` then makes no
call to `Update`, but it does not return the sentinel: it panics. -/
theorem updateTodo_notFound_panics :
    (FindByID kvClient sampleID []).1 = (none, none) ∧
    (UpdateTodo (NewTodoRepository kvClient) newYear2024 sampleID ⟨"", "C", true⟩ []).outcome
      = Outcome.panicked ∧
    (UpdateTodo (NewTodoRepository kvClient) newYear2024 sampleID ⟨"", "C", true⟩ []).calls
      = [Call.FindByID sampleID] := by
  decide

/-- C2, counterexample: two todos with second-precision timestamps that do not come
back from the item built from them.  One is dated in the year 10000: its item does
not decode.  The other carries the zone +09:00: its item decodes to timestamps nine
hours after the original instants. -/
theorem marshal_roundTrip_counterexample :
    (todoYear10000.CreatedAt.nsec = 0 ∧ todoYear10000.UpdatedAt.nsec = 0 ∧
      unmarshalTodo (marshalTodo todoYear10000) = .error (.time "10000-01-01T00:00:00Z")) ∧
    (todoTokyo.CreatedAt.nsec = 0 ∧ todoTokyo.UpdatedAt.nsec = 0 ∧
      unmarshalTodo (marshalTodo todoTokyo)
        = .ok { todoTokyo with CreatedAt := ⟨1704099600, 0, 0⟩, UpdatedAt := ⟨1704099600, 0, 0⟩ } ∧
      Time.Equal ⟨1704099600, 0, 0⟩ todoTokyo.CreatedAt = false) := by
  decide

/-- C2, amended: for every todo whose two timestamps have second precision, are in
UTC and lie in the years 0 to 9999, decoding the item that `Create` and `Update`
build from it succeeds and gives the todo back, equal in all six fields. -/
theorem unmarshal_marshal_roundTrip (t : Todo) (hc : t.CreatedAt.InFormat)
    (hu : t.UpdatedAt.InFormat) : unmarshalTodo (marshalTodo t) = .ok t := by
  rw [unmarshalTodo_marshalTodo t hc.2.2.1 hc.2.2.2 hu.2.2.1 hu.2.2.2,
    Time.eq_of_inFormat _ hc, Time.eq_of_inFormat _ hu]

/-- C2, witness: the round trip at `sampleTodo`. -/
theorem unmarshal_marshal_roundTrip_witness :
    sampleTodo.CreatedAt.InFormat ∧ sampleTodo.UpdatedAt.InFormat ∧
    unmarshalTodo (marshalTodo sampleTodo) = .ok sampleTodo :=
  ⟨by decide, by decide, unmarshal_marshal_roundTrip sampleTodo (by decide) (by decide)⟩


/-- C5 (code defect): the timestamp text written for a todo whose times carry the
zone +09:00.  The todo was created at 2024-01-01T00:00:00 UTC; the text written is
the wall clock of the zone with the letter Z, `2024-01-01T09:00:00Z`, and read as a
UTC timestamp it is an instant 32400 seconds after the one of the field. -/
theorem format_writes_wall_clock :
    stringAttr (marshalTodo todoTokyo) "created_at" = some "2024-01-01T09:00:00Z" ∧
    stringAttr (marshalTodo todoTokyo) "updated_at" = some "2024-01-01T09:00:00Z" ∧
    timeParse "2024-01-01T09:00:00Z" = some ⟨1704099600, 0, 0⟩ ∧
    todoTokyo.CreatedAt.truncSeconds = ⟨1704067200, 0, 0⟩ ∧
    newYear2024.Format = "2024-01-01T00:00:00Z" ∧
    Time.Equal newYear2024 todoTokyo.CreatedAt = true := by
  decide


/-- The steps of `unmarshalTodo` in terms of the attribute accessors: it returns an
error exactly when an accessor or a parser gives nothing, and the todo whose
fields the accessors and parsers give otherwise. -/
theorem unmarshalTodo_attr_iff (item : Item) :
    ((∃ e, unmarshalTodo item = .error e) ↔
      (stringAttr item "id" = none ∨ stringAttr item "title" = none ∨
        stringAttr item "description" = none ∨ boolAttr item "completed" = none ∨
        stringAttr item "created_at" = none ∨ stringAttr item "updated_at" = none ∨
        (∃ v, stringAttr item "id" = some v ∧ uuidParse v = none) ∨
        (∃ v, stringAttr item "created_at" = some v ∧ timeParse v = none) ∨
        (∃ v, stringAttr item "updated_at" = some v ∧ timeParse v = none))) ∧
    (∀ t, unmarshalTodo item = .ok t ↔
      ((stringAttr item "id").bind uuidParse = some t.ID ∧
        stringAttr item "title" = some t.Title ∧
        stringAttr item "description" = some t.Description ∧
        boolAttr item "completed" = some t.Completed ∧
        (stringAttr item "created_at").bind timeParse = some t.CreatedAt ∧
        (stringAttr item "updated_at").bind timeParse = some t.UpdatedAt)) := by
  unfold unmarshalTodo
  rcases h1 : stringAttr item "id" with _ | idStr <;> try dsimp only
  · simp_all
  rcases h2 : uuidParse idStr with _ | id <;> try dsimp only
  · simp_all
  rcases h3 : stringAttr item "title" with _ | title <;> try dsimp only
  · simp_all
  rcases h4 : stringAttr item "description" with _ | description <;> try dsimp only
  · simp_all
  rcases h5 : boolAttr item "completed" with _ | completed <;> try dsimp only
  · simp_all
  rcases h6 : stringAttr item "created_at" with _ | createdAtStr <;> try dsimp only
  · simp_all
  rcases h7 : timeParse createdAtStr with _ | createdAt <;> try dsimp only
  · simp_all
  rcases h8 : stringAttr item "updated_at" with _ | updatedAtStr <;> try dsimp only
  · simp_all
  rcases h9 : timeParse updatedAtStr with _ | updatedAt <;> try dsimp only
  · simp_all
  constructor
  · simp_all
  · intro t
    obtain ⟨a, b, c, d, e, f⟩ := t
    simp_all

/-- The attribute `name` is present in the item and is the string `v`, in terms of
the map lookup: what `stringAttr` returning `v` means. -/
theorem stringAttr_eq_some_iff (item : Item) (name v : String) :
    stringAttr item name = some v ↔ item.lookup name = some (.S v) := by
  unfold stringAttr
  split
  · rename_i w h
    rw [h]
    constructor
    · intro e; cases e; rfl
    · intro e; cases e; rfl
  · rename_i h
    constructor
    · intro e; cases e
    · intro e; exact absurd e (h v)

/-- The attribute `name` is absent or not a string, in terms of the map lookup. -/
theorem stringAttr_eq_none_iff (item : Item) (name : String) :
    stringAttr item name = none ↔ ∀ v, item.lookup name ≠ some (.S v) := by
  constructor
  · intro h v hv
    rw [(stringAttr_eq_some_iff item name v).mpr hv] at h
    cases h
  · intro h
    rcases hs : stringAttr item name with _ | v
    · rfl
    · exact absurd ((stringAttr_eq_some_iff item name v).mp hs) (h v)

/-- The attribute `name` is present in the item and is the boolean `b`, in terms of
the map lookup. -/
theorem boolAttr_eq_some_iff (item : Item) (name : String) (b : Bool) :
    boolAttr item name = some b ↔ item.lookup name = some (.BOOL b) := by
  unfold boolAttr
  split
  · rename_i w h
    rw [h]
    constructor
    · intro e; cases e; rfl
    · intro e; cases e; rfl
  · rename_i h
    constructor
    · intro e; cases e
    · intro e; exact absurd e (h b)

/-- The attribute `name` is absent or not a boolean, in terms of the map lookup. -/
theorem boolAttr_eq_none_iff (item : Item) (name : String) :
    boolAttr item name = none ↔ ∀ b, item.lookup name ≠ some (.BOOL b) := by
  constructor
  · intro h b hb
    rw [(boolAttr_eq_some_iff item name b).mpr hb] at h
    cases h
  · intro h
    rcases hs : boolAttr item name with _ | b
    · rfl
    · exact absurd ((boolAttr_eq_some_iff item name b).mp hs) (h b)

/-- C6: `unmarshalTodo` returns an error exactly when one of the six attributes is
absent from the item or holds a value of the wrong type (anything but a string for
`id`, `title`, `description`, `created_at`, `updated_at`, anything but a boolean for
`completed`), or the `id` string is not a parseable UUID, or a timestamp string does
not parse in the layout; and it returns the todo `t` exactly when the item holds
the title, the description and the flag of `t` and strings for `id`, `created_at`
and `updated_at` that parse to the identifier and the two timestamps of `t`. -/
theorem unmarshalTodo_error_iff (item : Item) :
    ((∃ e, unmarshalTodo item = .error e) ↔
      ((∀ v, item.lookup "id" ≠ some (.S v)) ∨ (∀ v, item.lookup "title" ≠ some (.S v)) ∨
        (∀ v, item.lookup "description" ≠ some (.S v)) ∨
        (∀ b, item.lookup "completed" ≠ some (.BOOL b)) ∨
        (∀ v, item.lookup "created_at" ≠ some (.S v)) ∨
        (∀ v, item.lookup "updated_at" ≠ some (.S v)) ∨
        (∃ v, item.lookup "id" = some (.S v) ∧ uuidParse v = none) ∨
        (∃ v, item.lookup "created_at" = some (.S v) ∧ timeParse v = none) ∨
        (∃ v, item.lookup "updated_at" = some (.S v) ∧ timeParse v = none))) ∧
    (∀ t, unmarshalTodo item = .ok t ↔
      ∃ idStr createdAtStr updatedAtStr,
        item.lookup "id" = some (.S idStr) ∧ uuidParse idStr = some t.ID ∧
        item.lookup "title" = some (.S t.Title) ∧
        item.lookup "description" = some (.S t.Description) ∧
        item.lookup "completed" = some (.BOOL t.Completed) ∧
        item.lookup "created_at" = some (.S createdAtStr) ∧
        timeParse createdAtStr = some t.CreatedAt ∧
        item.lookup "updated_at" = some (.S updatedAtStr) ∧
        timeParse updatedAtStr = some t.UpdatedAt) := by
  obtain ⟨h1, h2⟩ := unmarshalTodo_attr_iff item
  constructor
  · rw [h1]
    simp only [stringAttr_eq_none_iff, stringAttr_eq_some_iff, boolAttr_eq_none_iff]
  · intro t
    rw [h2 t]
    simp only [Option.bind_eq_some, stringAttr_eq_some_iff, boolAttr_eq_some_iff]
    constructor
    · rintro ⟨⟨a, ha, ha1⟩, hb, hc, hd, ⟨e, he, he1⟩, ⟨f, hf, hf1⟩⟩
      exact ⟨a, e, f, ha, ha1, hb, hc, hd, he, he1, hf, hf1⟩
    · rintro ⟨a, e, f, ha, ha1, hb, hc, hd, he, he1, hf, hf1⟩
      exact ⟨⟨a, ha, ha1⟩, hb, hc, hd, ⟨e, he, he1⟩, ⟨f, hf, hf1⟩⟩

/-- C6, witness: an item without `completed` and an item whose `completed` is a
string give an error, and the item of `sampleTodo` gives `sampleTodo`. -/
theorem unmarshalTodo_error_iff_witness :
    (∃ e, unmarshalTodo itemWithoutCompleted = .error e) ∧
    (∃ e, unmarshalTodo itemStringCompleted = .error e) ∧
    unmarshalTodo (marshalTodo sampleTodo) = .ok sampleTodo :=
  ⟨(unmarshalTodo_error_iff itemWithoutCompleted).1.mpr
      (Or.inr (Or.inr (Or.inr (Or.inl (fun b h => by simp [itemWithoutCompleted, List.lookup] at h))))),
    (unmarshalTodo_error_iff itemStringCompleted).1.mpr
      (Or.inr (Or.inr (Or.inr (Or.inl (fun b h => by simp [itemStringCompleted, List.lookup] at h))))),
    ((unmarshalTodo_error_iff (marshalTodo sampleTodo)).2 sampleTodo).mpr
      ⟨sampleID.String, "2024-01-01T00:00:00Z", "2024-01-01T00:00:00Z", rfl, by decide, rfl, rfl,
        rfl, rfl, by decide, rfl, by decide⟩⟩

/-! ### The repository over a key-value table -/

/-- The key of the item of a todo is the text of its identifier. -/
theorem keyOf_marshalTodo (t : Todo) : keyOf (marshalTodo t) = some t.ID.String := by
  simp [keyOf, stringAttr, marshalTodo, List.lookup]

/-- The key of a key literal is the text of the identifier. -/
theorem keyOf_keyItem (id : UUID) : keyOf (keyItem id) = some id.String := by
  simp [keyOf, stringAttr, keyItem, List.lookup]

/-- In the key-value table, the item just written is the one read under its key. -/
theorem kv_find_after_put (tbl : List Item) (item : Item) (k : String) (h : keyOf item = some k) :
    (tbl.filter (fun it => keyOf it != some k) ++ [item]).find? (fun it => keyOf it == some k)
      = some item := by
  rw [List.find?_append]
  have hn : (List.filter (fun it => keyOf it != some k) tbl).find? (fun it => keyOf it == some k)
      = none := by
    rw [List.find?_eq_none]
    intro x hx
    have := (List.mem_filter.mp hx).2
    simpa using this
  rw [hn]
  simp [List.find?, h]

/-- A write to the key-value table of the item of a todo succeeds and leaves the
item under the todo's identifier. -/
theorem kv_put_marshalTodo (t : Todo) (tbl : List Item) :
    (kvClient.PutItem (marshalTodo t) tbl).1 = none ∧
    (kvClient.GetItem (keyItem t.ID) (kvClient.PutItem (marshalTodo t) tbl).2).1
      = .ok (some (marshalTodo t)) := by
  simp only [kvClient, keyOf_marshalTodo, keyOf_keyItem]
  exact ⟨trivial, by rw [kv_find_after_put _ _ _ (keyOf_marshalTodo t)]⟩

/-- `Create` and `Update` make the same write and return the todo handed in when it succeeds. -/
theorem Create_of_put {σ : Type} (c : Client σ) (t : Todo) (st : σ)
    (h : (c.PutItem (marshalTodo t) st).1 = none) :
    Create c t st = ((some t, none), (c.PutItem (marshalTodo t) st).2) ∧
    Update c t st = ((some t, none), (c.PutItem (marshalTodo t) st).2) := by
  simp only [Create, Update]
  rcases hp : c.PutItem (marshalTodo t) st with ⟨_ | err, s1⟩
  · simp
  · rw [hp] at h; simp at h

/-- The table `CreateTodo` leaves over a key-value table: the table with the item of
the new todo written. -/
theorem CreateTodo_kv_state (now : Time) (newID : UUID) (i : TodoCreate) (tbl : List Item) :
    (CreateTodo (NewTodoRepository kvClient) now newID i tbl).state
      = (kvClient.PutItem (marshalTodo ⟨newID, i.Title, i.Description, false, now, now⟩) tbl).2 := by
  have hc := (Create_of_put kvClient ⟨newID, i.Title, i.Description, false, now, now⟩ tbl
    (kv_put_marshalTodo _ tbl).1).1
  simp only [CreateTodo, NewTodoRepository, hc]

/-- C3: partial-update merge.  When `FindByID` returns the stored todo `s` and the
write of `Update` succeeds, `UpdateTodo` passes to `Update` and returns one and the
same todo `m`: the call leaves the backend in the state the write of the item of
`m` leaves it in, after the read.  The title of `m` is `u.Title` if that is
non-empty and `s.Title` otherwise, its description is `u.Description` if that is
non-empty and `s.Description` otherwise, and its completed flag is `u.Completed`. -/
theorem updateTodo_merges {σ : Type} (c : Client σ) (now : Time) (id : UUID) (u : TodoUpdate)
    (st : σ) (s : Todo)
    (hFind : (FindByID c id st).1 = (some s, none))
    (hPut : (c.PutItem (marshalTodo (applyUpdate s u now)) (FindByID c id st).2).1 = none) :
    ∃ m : Todo,
      (UpdateTodo (NewTodoRepository c) now id u st).outcome = .returned (some m, none) ∧
      (UpdateTodo (NewTodoRepository c) now id u st).calls = [.FindByID id, .Update m] ∧
      (UpdateTodo (NewTodoRepository c) now id u st).state
        = (c.PutItem (marshalTodo m) (c.GetItem (keyItem id) st).2).2 ∧
      m.Title = (if u.Title = "" then s.Title else u.Title) ∧
      m.Description = (if u.Description = "" then s.Description else u.Description) ∧
      m.Completed = u.Completed := by
  have hF : (NewTodoRepository c).FindByID id st = ((some s, none), (FindByID c id st).2) :=
    Prod.ext hFind rfl
  obtain ⟨h1, h2, h3⟩ := UpdateTodo_of_found (NewTodoRepository c) now id u st _ s hF
  have hU := (Create_of_put c (applyUpdate s u now) (FindByID c id st).2 hPut).2
  have hS : (FindByID c id st).2 = (c.GetItem (keyItem id) st).2 := by
    simp only [FindByID]
    rcases c.GetItem (keyItem id) st with ⟨r | (_ | item), s1⟩
    · rfl
    · rfl
    · simp only []
      rcases unmarshalTodo item with e | t <;> rfl
  refine ⟨applyUpdate s u now, ?_, h2, ?_, ?_, ?_, rfl⟩
  · rw [h1]
    exact congrArg (fun r => Outcome.returned r.1) hU
  · rw [h3, ← hS]
    exact congrArg (fun r => r.2) hU
  · by_cases h : u.Title = "" <;> simp [applyUpdate, h]
  · by_cases h : u.Description = "" <;> simp [applyUpdate, h]

/-- C3, witness: the stored todo with title A, description B, not completed, updated
with an empty title, description C and completed, has title A, description C and
is completed; the table then holds the item of that todo alone, and `FindByID`
returns it. -/
theorem updateTodo_merges_witness :
    (FindByID kvClient sampleID [marshalTodo sampleTodo]).1 = (some sampleTodo, none) ∧
    (∃ m : Todo,
      (UpdateTodo (NewTodoRepository kvClient) newYear2024Later sampleID ⟨"", "C", true⟩
        [marshalTodo sampleTodo]).outcome = .returned (some m, none) ∧
      (UpdateTodo (NewTodoRepository kvClient) newYear2024Later sampleID ⟨"", "C", true⟩
        [marshalTodo sampleTodo]).calls = [.FindByID sampleID, .Update m] ∧
      (UpdateTodo (NewTodoRepository kvClient) newYear2024Later sampleID ⟨"", "C", true⟩
        [marshalTodo sampleTodo]).state
        = (kvClient.PutItem (marshalTodo m)
            (kvClient.GetItem (keyItem sampleID) [marshalTodo sampleTodo]).2).2 ∧
      m.Title = "A" ∧ m.Description = "C" ∧ m.Completed = true) ∧
    (UpdateTodo (NewTodoRepository kvClient) newYear2024Later sampleID ⟨"", "C", true⟩
      [marshalTodo sampleTodo]).state
      = [marshalTodo ⟨sampleID, "A", "C", true, newYear2024, newYear2024Later⟩] ∧
    (FindByID kvClient sampleID
      (UpdateTodo (NewTodoRepository kvClient) newYear2024Later sampleID ⟨"", "C", true⟩
        [marshalTodo sampleTodo]).state).1
      = (some ⟨sampleID, "A", "C", true, newYear2024, newYear2024Later⟩, none) :=
  ⟨by decide, updateTodo_merges kvClient newYear2024Later sampleID ⟨"", "C", true⟩
    [marshalTodo sampleTodo] sampleTodo (by decide) (by decide), rfl, by decide⟩

/-- C4: when the write of `Create` succeeds, `CreateTodo` hands the repository and
returns one and the same todo `t`: the call leaves the backend in the state the
write of the item of `t` leaves it in.  The title and description of `t` are those
of the input, it is not completed, its creation and update times are both the one
clock reading `now`, and its identifier is the generated one.  All six fields are
populated in what is stored: over a key-value table the item then found under the
identifier holds the six attributes with these values. -/
theorem createTodo_record {σ : Type} (c : Client σ) (now : Time) (newID : UUID) (i : TodoCreate)
    (st : σ)
    (hPut : (c.PutItem (marshalTodo ⟨newID, i.Title, i.Description, false, now, now⟩) st).1 = none) :
    ∃ t : Todo,
      (CreateTodo (NewTodoRepository c) now newID i st).outcome = .returned (some t, none) ∧
      (CreateTodo (NewTodoRepository c) now newID i st).calls = [.Create t] ∧
      (CreateTodo (NewTodoRepository c) now newID i st).state = (c.PutItem (marshalTodo t) st).2 ∧
      t.ID = newID ∧ t.Title = i.Title ∧ t.Description = i.Description ∧ t.Completed = false ∧
      t.CreatedAt = now ∧ t.UpdatedAt = now ∧ t.CreatedAt = t.UpdatedAt ∧
      (∀ tbl : List Item, ∃ item : Item,
        (kvClient.GetItem (keyItem newID)
          (CreateTodo (NewTodoRepository kvClient) now newID i tbl).state).1 = .ok (some item) ∧
        item.lookup "id" = some (.S newID.String) ∧
        item.lookup "title" = some (.S i.Title) ∧
        item.lookup "description" = some (.S i.Description) ∧
        item.lookup "completed" = some (.BOOL false) ∧
        item.lookup "created_at" = some (.S now.Format) ∧
        item.lookup "updated_at" = some (.S now.Format)) := by
  have hC := (Create_of_put c ⟨newID, i.Title, i.Description, false, now, now⟩ st hPut).1
  refine ⟨⟨newID, i.Title, i.Description, false, now, now⟩, ?_, rfl, ?_, rfl, rfl, rfl, rfl, rfl,
    rfl, rfl, ?_⟩
  · exact congrArg (fun r => Outcome.returned r.1) hC
  · exact congrArg (fun r => r.2) hC
  · intro tbl
    refine ⟨marshalTodo ⟨newID, i.Title, i.Description, false, now, now⟩, ?_, ?_⟩
    · rw [CreateTodo_kv_state]
      exact (kv_put_marshalTodo ⟨newID, i.Title, i.Description, false, now, now⟩ tbl).2
    · simp [marshalTodo, List.lookup]

/-- C4, witness: `CreateTodo` of the input with title A and description B on an empty
table, on a clock in the zone +09:00; the table then holds the item of the todo
alone. -/
theorem createTodo_record_witness :
    (∃ t : Todo,
      (CreateTodo (NewTodoRepository kvClient) newYear2024Tokyo sampleID ⟨"A", "B"⟩ []).outcome
        = .returned (some t, none) ∧
      (CreateTodo (NewTodoRepository kvClient) newYear2024Tokyo sampleID ⟨"A", "B"⟩ []).calls
        = [.Create t] ∧
      (CreateTodo (NewTodoRepository kvClient) newYear2024Tokyo sampleID ⟨"A", "B"⟩ []).state
        = (kvClient.PutItem (marshalTodo t) []).2 ∧
      t.ID = sampleID ∧ t.Title = "A" ∧ t.Description = "B" ∧ t.Completed = false ∧
      t.CreatedAt = newYear2024Tokyo ∧ t.UpdatedAt = newYear2024Tokyo ∧ t.CreatedAt = t.UpdatedAt ∧
      (∀ tbl : List Item, ∃ item : Item,
        (kvClient.GetItem (keyItem sampleID)
          (CreateTodo (NewTodoRepository kvClient) newYear2024Tokyo sampleID ⟨"A", "B"⟩ tbl).state).1
          = .ok (some item) ∧
        item.lookup "id" = some (.S sampleID.String) ∧
        item.lookup "title" = some (.S "A") ∧
        item.lookup "description" = some (.S "B") ∧
        item.lookup "completed" = some (.BOOL false) ∧
        item.lookup "created_at" = some (.S newYear2024Tokyo.Format) ∧
        item.lookup "updated_at" = some (.S newYear2024Tokyo.Format))) ∧
    (CreateTodo (NewTodoRepository kvClient) newYear2024Tokyo sampleID ⟨"A", "B"⟩ []).state
      = [marshalTodo todoTokyo] :=
  ⟨createTodo_record kvClient newYear2024Tokyo sampleID ⟨"A", "B"⟩ [] (by decide), rfl⟩

/-- C7, counterexample: a todo with a sub-second timestamp.  `Create` writes its
item to the table and returns the todo handed in, while the written item decodes
to a todo with the half second cut off, which is also what a later `FindByID`
returns: the returned record is not the stored one. -/
theorem create_returns_input_counterexample :
    (Create kvClient todoSubSecond []).1 = (some todoSubSecond, none) ∧
    (Create kvClient todoSubSecond []).2 = [marshalTodo todoSubSecond] ∧
    unmarshalTodo (marshalTodo todoSubSecond) = .ok sampleTodo ∧
    (FindByID kvClient todoSubSecond.ID (Create kvClient todoSubSecond []).2).1
      = (some sampleTodo, none) ∧
    todoSubSecond ≠ sampleTodo ∧
    Time.Equal todoSubSecond.CreatedAt sampleTodo.CreatedAt = false :=
  ⟨by decide, rfl, by decide, by decide, by decide, by decide⟩

/-- C7, amended: for every todo whose two timestamps have second precision, are in
UTC and lie in the years 0 to 9999, when the backend write succeeds `Create` (and
likewise `Update`) returns the todo handed in, which equals the todo obtained by
decoding the item the call wrote; and over a key-value table a `FindByID` of its
identifier right after the call returns a todo equal to it. -/
theorem create_returns_stored {σ : Type} (c : Client σ) (st : σ) (tbl : List Item) (t : Todo)
    (hc : t.CreatedAt.InFormat) (hu : t.UpdatedAt.InFormat)
    (hPut : (c.PutItem (marshalTodo t) st).1 = none) :
    (Create c t st).1 = (some t, none) ∧ (Update c t st).1 = (some t, none) ∧
    unmarshalTodo (marshalTodo t) = .ok t ∧
    (Create kvClient t tbl).1 = (some t, none) ∧
    (FindByID kvClient t.ID (Create kvClient t tbl).2).1 = (some t, none) ∧
    (Update kvClient t tbl).1 = (some t, none) ∧
    (FindByID kvClient t.ID (Update kvClient t tbl).2).1 = (some t, none) := by
  have hrt : unmarshalTodo (marshalTodo t) = .ok t := by
    rw [unmarshalTodo_marshalTodo t hc.2.2.1 hc.2.2.2 hu.2.2.1 hu.2.2.2,
      Time.eq_of_inFormat _ hc, Time.eq_of_inFormat _ hu]
  obtain ⟨k1, k2⟩ := kv_put_marshalTodo t tbl
  obtain ⟨c1, c2⟩ := Create_of_put c t st hPut
  obtain ⟨d1, d2⟩ := Create_of_put kvClient t tbl k1
  have hfind : (FindByID kvClient t.ID (kvClient.PutItem (marshalTodo t) tbl).2).1
      = (some t, none) := by
    simp only [FindByID]
    rcases hg : kvClient.GetItem (keyItem t.ID) (kvClient.PutItem (marshalTodo t) tbl).2
      with ⟨r, s1⟩
    rw [hg] at k2
    simp only at k2
    subst k2
    simp [hrt]
  rw [c1, c2, d1, d2]
  exact ⟨rfl, rfl, hrt, rfl, hfind, rfl, hfind⟩

/-- C7, witness: `Create` and `Update` of `sampleTodo`, then `FindByID`, on a table that
holds another item. -/
theorem create_returns_stored_witness :
    sampleTodo.CreatedAt.InFormat ∧ sampleTodo.UpdatedAt.InFormat ∧
    (kvClient.PutItem (marshalTodo sampleTodo) []).1 = none ∧
    (Create kvClient sampleTodo []).1 = (some sampleTodo, none) ∧
    (Update kvClient sampleTodo []).1 = (some sampleTodo, none) ∧
    unmarshalTodo (marshalTodo sampleTodo) = .ok sampleTodo ∧
    (Create kvClient sampleTodo [marshalTodo todoTokyo]).1 = (some sampleTodo, none) ∧
    (FindByID kvClient sampleTodo.ID (Create kvClient sampleTodo [marshalTodo todoTokyo]).2).1
      = (some sampleTodo, none) ∧
    (Update kvClient sampleTodo [marshalTodo todoTokyo]).1 = (some sampleTodo, none) ∧
    (FindByID kvClient sampleTodo.ID (Update kvClient sampleTodo [marshalTodo todoTokyo]).2).1
      = (some sampleTodo, none) :=
  ⟨by decide, by decide, by decide,
    create_returns_stored kvClient [] [marshalTodo todoTokyo] sampleTodo (by decide) (by decide)
      (by decide)⟩


/-- C8: when the backend read succeeds and finds no item, `FindByID` returns the
not-found sentinel, an absent todo with no error, and so does `GetTodo`, which
returns the result of `FindByID` unchanged; a key-value table that holds no item
under the identifier gives that read; and `FindByID` returns an error only when
the backend call fails or the item found cannot be decoded. -/
theorem findByID_notFound {σ : Type} (c : Client σ) (id : UUID) (st : σ)
    (h : (c.GetItem (keyItem id) st).1 = .ok none) :
    (FindByID c id st).1 = (none, none) ∧
    (GetTodo (NewTodoRepository c) id st).outcome = .returned (none, none) ∧
    (∀ (repo : TodoRepository σ) (s : σ),
      (GetTodo repo id s).outcome = .returned (repo.FindByID id s).1) ∧
    (∀ tbl : List Item, (∀ it ∈ tbl, keyOf it ≠ some id.String) →
      (FindByID kvClient id tbl).1 = (none, none)) ∧
    (∀ (s : σ) (e : Error), (FindByID c id s).1.2 = some e →
      (c.GetItem (keyItem id) s).1 = .error e ∨
      ∃ item, (c.GetItem (keyItem id) s).1 = .ok (some item) ∧ unmarshalTodo item = .error e) := by
  have hF : (FindByID c id st).1 = (none, none) := by
    simp only [FindByID]
    rcases hg : c.GetItem (keyItem id) st with ⟨r, s1⟩
    rw [hg] at h
    simp only at h
    subst h
    rfl
  refine ⟨hF, ?_, ?_, ?_, ?_⟩
  · simp only [GetTodo, NewTodoRepository]
    rw [hF]
  · intro repo s
    rfl
  · intro tbl htbl
    have hnone : tbl.find? (fun it => keyOf it == some id.String) = none := by
      rw [List.find?_eq_none]
      intro x hx
      simpa using htbl x hx
    simp [FindByID, kvClient, keyOf_keyItem, hnone]
  · intro s e he
    simp only [FindByID] at he
    rcases hg : c.GetItem (keyItem id) s with ⟨r, s1⟩
    rw [hg] at he
    rcases r with err | (_ | item)
    · left
      simpa using he
    · simp at he
    · right
      refine ⟨item, rfl, ?_⟩
      simp only at he
      rcases hu : unmarshalTodo item with err | todo
      · rw [hu] at he
        simp only [Option.some.injEq] at he
        rw [he]
      · rw [hu] at he
        simp at he

/-- C8, witness: a table that holds one item, under another identifier. -/
theorem findByID_notFound_witness :
    (kvClient.GetItem (keyItem sampleID) [marshalTodo { sampleTodo with ID := ⟨List.replicate 16 7, rfl⟩ }]).1
      = .ok none ∧
    (FindByID kvClient sampleID [marshalTodo { sampleTodo with ID := ⟨List.replicate 16 7, rfl⟩ }]).1
      = (none, none) ∧
    (GetTodo (NewTodoRepository kvClient) sampleID
      [marshalTodo { sampleTodo with ID := ⟨List.replicate 16 7, rfl⟩ }]).outcome
      = .returned (none, none) :=
  have h := findByID_notFound kvClient sampleID
    [marshalTodo { sampleTodo with ID := ⟨List.replicate 16 7, rfl⟩ }] rfl
  ⟨rfl, h.1, h.2.1⟩

/-- The decoding loop over items that all decode appends the decoded todos in order. -/
theorem unmarshalAll_ok (items : List Item) (todos acc : List Todo)
    (h : items.map unmarshalTodo = todos.map Except.ok) :
    unmarshalAll items acc = (some (acc ++ todos), none) := by
  induction items generalizing todos acc with
  | nil =>
    cases todos with
    | nil => simp [unmarshalAll]
    | cons t ts => simp at h
  | cons item rest ih =>
    cases todos with
    | nil => simp at h
    | cons t ts =>
      simp only [List.map_cons, List.cons.injEq] at h
      simp only [unmarshalAll, h.1]
      rw [ih ts (acc ++ [t]) h.2]
      simp

/-- The decoding loop ends with the error of the first item that does not decode. -/
theorem unmarshalAll_error (pre post : List Item) (item : Item) (todos acc : List Todo) (e : Error)
    (hpre : pre.map unmarshalTodo = todos.map Except.ok) (hitem : unmarshalTodo item = .error e) :
    unmarshalAll (pre ++ item :: post) acc = (none, some e) := by
  induction pre generalizing todos acc with
  | nil => simp [unmarshalAll, hitem]
  | cons p rest ih =>
    cases todos with
    | nil => simp at hpre
    | cons t ts =>
      simp only [List.map_cons, List.cons.injEq] at hpre
      simp only [List.cons_append, unmarshalAll, hpre.1]
      exact ih ts (acc ++ [t]) hpre.2

/-- C9: for a scan that succeeds with `items`, `FindAll` returns the decoded todos,
one per item and in scan order, when every item decodes; it returns the error of
the first item that fails to decode, and no todos, when one does; for no items it
returns an empty sequence that is not nil, with no error; and `GetTodos` returns
the result of `FindAll` unchanged. -/
theorem findAll_results {σ : Type} (c : Client σ) (st : σ) (items : List Item)
    (h : (c.Scan st).1 = .ok items) :
    (∀ todos : List Todo, items.map unmarshalTodo = todos.map Except.ok →
      (FindAll c st).1 = (some todos, none)) ∧
    (∀ (pre post : List Item) (item : Item) (todos : List Todo) (e : Error),
      items = pre ++ item :: post → pre.map unmarshalTodo = todos.map Except.ok →
      unmarshalTodo item = .error e → (FindAll c st).1 = (none, some e)) ∧
    (items = [] → (FindAll c st).1 = (some [], none)) ∧
    (GetTodos (NewTodoRepository c) st).outcome = .returned (FindAll c st).1 := by
  have hF : (FindAll c st).1 = unmarshalAll items [] := by
    simp only [FindAll]
    rcases hs : c.Scan st with ⟨r, s1⟩
    rw [hs] at h
    simp only at h
    subst h
    rfl
  refine ⟨?_, ?_, ?_, rfl⟩
  · intro todos ht
    rw [hF, unmarshalAll_ok items todos [] ht]
    simp
  · intro pre post item todos e hi hp he
    rw [hF, hi, unmarshalAll_error pre post item todos [] e hp he]
  · intro hi
    rw [hF, hi]
    rfl

/-- C9, witness: a table of two items; the todos come back in scan order. -/
theorem findAll_results_witness :
    (kvClient.Scan [marshalTodo sampleTodo, marshalTodo todoTokyo]).1
      = .ok [marshalTodo sampleTodo, marshalTodo todoTokyo] ∧
    (FindAll kvClient [marshalTodo sampleTodo, marshalTodo todoTokyo]).1
      = (some [sampleTodo,
          { todoTokyo with CreatedAt := ⟨1704099600, 0, 0⟩, UpdatedAt := ⟨1704099600, 0, 0⟩ }],
        none) :=
  ⟨rfl, (findAll_results kvClient [marshalTodo sampleTodo, marshalTodo todoTokyo]
    [marshalTodo sampleTodo, marshalTodo todoTokyo] rfl).1 _ (by decide)⟩

/-- C10: when `FindByID` returns the stored todo `s`, the todo that `UpdateTodo`
passes to `Update`, which is also the one it returns when the write succeeds, has
the identifier and the creation time of `s`: it is `s` with at most its title,
description, completed flag and update time changed. -/
theorem updateTodo_frame {σ : Type} (c : Client σ) (now : Time) (id : UUID) (u : TodoUpdate)
    (st : σ) (s : Todo) (hFind : (FindByID c id st).1 = (some s, none)) :
    ∃ m : Todo,
      (UpdateTodo (NewTodoRepository c) now id u st).calls = [.FindByID id, .Update m] ∧
      m.ID = s.ID ∧ m.CreatedAt = s.CreatedAt ∧
      m = { s with Title := m.Title, Description := m.Description, Completed := m.Completed,
                   UpdatedAt := m.UpdatedAt } ∧
      (∀ r : Todo, (UpdateTodo (NewTodoRepository c) now id u st).outcome
          = .returned (some r, none) → r = m) := by
  have hF : (NewTodoRepository c).FindByID id st = ((some s, none), (FindByID c id st).2) :=
    Prod.ext hFind rfl
  obtain ⟨h1, h2, -⟩ := UpdateTodo_of_found (NewTodoRepository c) now id u st _ s hF
  refine ⟨applyUpdate s u now, h2, rfl, rfl, rfl, ?_⟩
  intro r hr
  rw [h1] at hr
  simp only [NewTodoRepository, Update, Outcome.returned.injEq] at hr
  split at hr
  · simp at hr
  · simp only [Prod.mk.injEq, Option.some.injEq, and_true] at hr
    exact hr.symm

/-- C10, witness: the update of the stored `sampleTodo`. -/
theorem updateTodo_frame_witness :
    (FindByID kvClient sampleID [marshalTodo sampleTodo]).1 = (some sampleTodo, none) ∧
    ∃ m : Todo,
      (UpdateTodo (NewTodoRepository kvClient) newYear2024Tokyo sampleID ⟨"", "C", true⟩
        [marshalTodo sampleTodo]).calls = [.FindByID sampleID, .Update m] ∧
      m.ID = sampleTodo.ID ∧ m.CreatedAt = sampleTodo.CreatedAt ∧
      m = { sampleTodo with Title := m.Title, Description := m.Description,
                            Completed := m.Completed, UpdatedAt := m.UpdatedAt } ∧
      (∀ r : Todo, (UpdateTodo (NewTodoRepository kvClient) newYear2024Tokyo sampleID
          ⟨"", "C", true⟩ [marshalTodo sampleTodo]).outcome = .returned (some r, none) → r = m) :=
  ⟨by decide, updateTodo_frame kvClient newYear2024Tokyo sampleID ⟨"", "C", true⟩
    [marshalTodo sampleTodo] sampleTodo (by decide)⟩

/-! ### Timestamps across calls, the handler, and deletion -/

/-- What `FindByID` returns right after `CreateTodo` on a key-value table, for a
clock reading whose wall-clock year has four digits: the todo created, with both
timestamps replaced by the UTC time that reads like the wall clock of the reading. -/
theorem findByID_after_createTodo (tbl : List Item) (t0 : Time) (newID : UUID) (i : TodoCreate)
    (h0 : 0 ≤ t0.Year) (h1 : t0.Year ≤ 9999) :
    (FindByID kvClient newID (CreateTodo (NewTodoRepository kvClient) t0 newID i tbl).state).1
      = (some ⟨newID, i.Title, i.Description, false, ⟨t0.sec + t0.offset, 0, 0⟩,
          ⟨t0.sec + t0.offset, 0, 0⟩⟩, none) := by
  have hs : (CreateTodo (NewTodoRepository kvClient) t0 newID i tbl).state
      = (kvClient.PutItem (marshalTodo ⟨newID, i.Title, i.Description, false, t0, t0⟩) tbl).2 := by
    have hc := (Create_of_put kvClient ⟨newID, i.Title, i.Description, false, t0, t0⟩ tbl
      (kv_put_marshalTodo _ tbl).1).1
    simp only [CreateTodo, NewTodoRepository, hc]
  have hg := (kv_put_marshalTodo ⟨newID, i.Title, i.Description, false, t0, t0⟩ tbl).2
  have hd := unmarshalTodo_marshalTodo ⟨newID, i.Title, i.Description, false, t0, t0⟩ h0 h1 h0 h1
  rw [hs]
  simp only [FindByID]
  rcases hgi : kvClient.GetItem (keyItem newID)
    (kvClient.PutItem (marshalTodo ⟨newID, i.Title, i.Description, false, t0, t0⟩) tbl).2
    with ⟨r, s1⟩
  rw [hgi] at hg
  simp only at hg
  subst hg
  simp only [hd]

/-- What `UpdateTodo` returns right after `CreateTodo` on a key-value table: the
creation time is the wall clock of the first reading read as UTC, the update time
is the second reading itself. -/
theorem updateTodo_after_createTodo (tbl : List Item) (t0 t1 : Time) (newID : UUID)
    (i : TodoCreate) (u : TodoUpdate) (h0 : 0 ≤ t0.Year) (h1 : t0.Year ≤ 9999) :
    (UpdateTodo (NewTodoRepository kvClient) t1 newID u
      (CreateTodo (NewTodoRepository kvClient) t0 newID i tbl).state).outcome
      = .returned (some (applyUpdate ⟨newID, i.Title, i.Description, false,
          ⟨t0.sec + t0.offset, 0, 0⟩, ⟨t0.sec + t0.offset, 0, 0⟩⟩ u t1), none) := by
  have hf := findByID_after_createTodo tbl t0 newID i h0 h1
  have hF : (NewTodoRepository kvClient).FindByID newID
      (CreateTodo (NewTodoRepository kvClient) t0 newID i tbl).state
      = ((some ⟨newID, i.Title, i.Description, false, ⟨t0.sec + t0.offset, 0, 0⟩,
          ⟨t0.sec + t0.offset, 0, 0⟩⟩, none),
        (FindByID kvClient newID (CreateTodo (NewTodoRepository kvClient) t0 newID i tbl).state).2) :=
    Prod.ext hf rfl
  obtain ⟨o1, -, -⟩ := UpdateTodo_of_found (NewTodoRepository kvClient) t1 newID u _ _ _ hF
  rw [o1]
  have hu := (Create_of_put kvClient (applyUpdate ⟨newID, i.Title, i.Description, false,
    ⟨t0.sec + t0.offset, 0, 0⟩, ⟨t0.sec + t0.offset, 0, 0⟩⟩ u t1)
    (FindByID kvClient newID (CreateTodo (NewTodoRepository kvClient) t0 newID i tbl).state).2
    (kv_put_marshalTodo _ _).1).2
  exact congrArg (fun r => Outcome.returned r.1) hu

/-- On a UTC clock the order holds after an update: when the first reading is in
UTC and the second is not before it, the todo `UpdateTodo` returns after
`CreateTodo` has its creation time not after its update time. -/
theorem updateTodo_ordered_of_utc (t0 t1 : Time) (id : UUID) (i : TodoCreate) (u : TodoUpdate)
    (hz : t0.offset = 0) (hle : t1.Before t0 = false) :
    (applyUpdate ⟨id, i.Title, i.Description, false, ⟨t0.sec + t0.offset, 0, 0⟩,
      ⟨t0.sec + t0.offset, 0, 0⟩⟩ u t1).Ordered = true := by
  simp only [Todo.Ordered, applyUpdate, Time.Before, hz] at hle ⊢
  simp only [Bool.or_eq_false_iff, decide_eq_false_iff_not, Bool.and_eq_false_imp, beq_iff_eq,
    Bool.not_eq_true', Int.add_zero] at hle ⊢
  obtain ⟨a, b⟩ := hle
  refine ⟨a, fun h => ?_⟩
  simp

/-- On a UTC clock an update refreshes the update time: when the first reading is
in UTC and the second is later, the update time `FindByID` returns after
`CreateTodo` is before the second reading. -/
theorem stored_updatedAt_before_of_utc (t0 t1 : Time) (hz : t0.offset = 0)
    (hlt : t0.Before t1 = true) :
    Time.Before ⟨t0.sec + t0.offset, 0, 0⟩ t1 = true := by
  simp only [Time.Before, hz, Int.add_zero, Bool.or_eq_true, decide_eq_true_eq,
    Bool.and_eq_true, beq_iff_eq] at hlt ⊢
  rcases hlt with h | ⟨h1, h2⟩
  · exact Or.inl h
  · exact Or.inr ⟨h1, by omega⟩

/-- C11 (code defect): the order `created_at ≤ updated_at` after an update on a clock
in the zone +09:00.  `CreateTodo` at 2024-01-01T00:00:00 UTC returns a todo with equal
timestamps; `UpdateTodo` one second later fetches it, passes to `Update` and returns
a todo created at 2024-01-01T09:00:00 UTC and updated at 2024-01-01T00:00:01 UTC:
its update time is before its creation time. -/
theorem updateTodo_breaks_order :
    (CreateTodo (NewTodoRepository kvClient) newYear2024Tokyo sampleID ⟨"A", "B"⟩ []).outcome
      = .returned (some todoTokyo, none) ∧
    todoTokyo.Ordered = true ∧
    newYear2024TokyoLater.Before newYear2024Tokyo = false ∧
    (UpdateTodo (NewTodoRepository kvClient) newYear2024TokyoLater sampleID ⟨"", "C", true⟩
      (CreateTodo (NewTodoRepository kvClient) newYear2024Tokyo sampleID ⟨"A", "B"⟩ []).state).outcome
      = .returned (some ⟨sampleID, "A", "C", true, ⟨1704099600, 0, 0⟩, newYear2024TokyoLater⟩, none) ∧
    (UpdateTodo (NewTodoRepository kvClient) newYear2024TokyoLater sampleID ⟨"", "C", true⟩
      (CreateTodo (NewTodoRepository kvClient) newYear2024Tokyo sampleID ⟨"A", "B"⟩ []).state).calls
      = [.FindByID sampleID,
         .Update ⟨sampleID, "A", "C", true, ⟨1704099600, 0, 0⟩, newYear2024TokyoLater⟩] ∧
    Todo.Ordered ⟨sampleID, "A", "C", true, ⟨1704099600, 0, 0⟩, newYear2024TokyoLater⟩ = false := by
  decide

/-- C12 (code defect): the update time after an update on a clock in the zone +09:00.
The todo is created at 2024-01-01T00:00:00 UTC and updated one second later.  The
todo `UpdateTodo` returns has the second reading as its update time, but the todo
`FindByID` returned before the update has the update time 2024-01-01T09:00:00 UTC,
which is not before the new one: it is later. -/
theorem updateTodo_updatedAt_not_greater :
    newYear2024Tokyo.Before newYear2024TokyoLater = true ∧
    (FindByID kvClient sampleID
      (CreateTodo (NewTodoRepository kvClient) newYear2024Tokyo sampleID ⟨"A", "B"⟩ []).state).1
      = (some ⟨sampleID, "A", "B", false, ⟨1704099600, 0, 0⟩, ⟨1704099600, 0, 0⟩⟩, none) ∧
    (UpdateTodo (NewTodoRepository kvClient) newYear2024TokyoLater sampleID ⟨"", "C", true⟩
      (CreateTodo (NewTodoRepository kvClient) newYear2024Tokyo sampleID ⟨"A", "B"⟩ []).state).outcome
      = .returned (some ⟨sampleID, "A", "C", true, ⟨1704099600, 0, 0⟩, newYear2024TokyoLater⟩, none) ∧
    Time.Before ⟨1704099600, 0, 0⟩ newYear2024TokyoLater = false ∧
    Time.Before newYear2024TokyoLater ⟨1704099600, 0, 0⟩ = true := by
  decide

/-- C13: the handler of `GET /todos/:id` writes exactly one response.  Its status
is 400 exactly when the path parameter is not a parseable UUID, and the use case is
then not called; otherwise the use case is called once, and the status is 500 when
it returns an error, 404 when it returns the not-found sentinel, and 200 with the
todo as body when it returns a todo. -/
theorem getTodo_handler_status {σ : Type} (repo : TodoRepository σ) (param : String) (s : σ) :
    (∃ resp, (TodoHandler.GetTodo repo param s).outcome = .returned [resp]) ∧
    ((∃ body, (TodoHandler.GetTodo repo param s).outcome = .returned [⟨400, body⟩])
      ↔ uuidParse param = none) ∧
    (uuidParse param = none → (TodoHandler.GetTodo repo param s).calls = []) ∧
    (∀ id, uuidParse param = some id →
      (TodoHandler.GetTodo repo param s).calls = (GetTodo repo id s).calls ∧
      (GetTodo repo id s).calls = [.FindByID id] ∧
      (∀ todo e, (GetTodo repo id s).outcome = .returned (todo, some e) →
        (TodoHandler.GetTodo repo param s).outcome
          = .returned [⟨500, .error "Failed to get todo"⟩]) ∧
      ((GetTodo repo id s).outcome = .returned (none, none) →
        (TodoHandler.GetTodo repo param s).outcome
          = .returned [⟨404, .error "Todo not found"⟩]) ∧
      (∀ todo, (GetTodo repo id s).outcome = .returned (some todo, none) →
        (TodoHandler.GetTodo repo param s).outcome = .returned [⟨200, .todo todo⟩])) := by
  rcases hp : uuidParse param with _ | id
  · simp [TodoHandler.GetTodo, hp]
  · rcases hr : repo.FindByID id s with ⟨⟨todo, err⟩, s1⟩
    rcases err with _ | e
    · rcases todo with _ | t
      · simp [TodoHandler.GetTodo, GetTodo, hp, hr]
      · simp [TodoHandler.GetTodo, GetTodo, hp, hr]
    · simp [TodoHandler.GetTodo, GetTodo, hp, hr]

/-- The canonical text determines the UUID. -/
theorem UUID.String_injective (u v : UUID) (h : u.String = v.String) : u = v := by
  have hu := uuidParse_String u
  rw [h, uuidParse_String v] at hu
  exact (Option.some.inj hu).symm

/-- Removing the items of one key from a table leaves the item found under another key. -/
theorem kv_find_filter_other (tbl : List Item) (k k1 : String) (hk : k1 ≠ k) :
    (tbl.filter (fun it => keyOf it != some k)).find? (fun it => keyOf it == some k1)
      = tbl.find? (fun it => keyOf it == some k1) := by
  induction tbl with
  | nil => rfl
  | cons x xs ih =>
    rw [List.filter_cons]
    by_cases hx : keyOf x = some k
    · have hb : (keyOf x != some k) = false := by simp [hx]
      have hb1 : (keyOf x == some k1) = false := by
        rw [hx]
        simp only [beq_eq_false_iff_ne, ne_eq, Option.some.injEq]
        exact fun h => hk h.symm
      rw [hb]
      simp only [Bool.false_eq_true, if_false]
      rw [List.find?_cons, hb1]
      exact ih
    · have hb : (keyOf x != some k) = true := by simp [hx]
      rw [hb]
      simp only [if_true]
      rw [List.find?_cons, List.find?_cons, ih]

/-- Removing the items of a key from a table leaves no item under that key. -/
theorem kv_find_filter_same (tbl : List Item) (k : String) :
    (tbl.filter (fun it => keyOf it != some k)).find? (fun it => keyOf it == some k) = none := by
  rw [List.find?_eq_none]
  intro x hx
  simpa using (List.mem_filter.mp hx).2

/-- `FindByID` on a key-value table is determined by the item found under the key. -/
theorem FindByID_kv_congr (id : UUID) (tbl tbl1 : List Item)
    (h : tbl.find? (fun it => keyOf it == some id.String)
      = tbl1.find? (fun it => keyOf it == some id.String)) :
    (FindByID kvClient id tbl).1 = (FindByID kvClient id tbl1).1 := by
  simp only [FindByID, kvClient, keyOf_keyItem, h]
  rcases tbl1.find? (fun it => keyOf it == some id.String) with _ | item
  · rfl
  · simp only []
    rcases unmarshalTodo item with e | t <;> rfl

/-- `FindByID` on a key-value table that has no item under the key returns the
not-found sentinel. -/
theorem FindByID_kv_none (id : UUID) (tbl : List Item)
    (h : tbl.find? (fun it => keyOf it == some id.String) = none) :
    (FindByID kvClient id tbl).1 = (none, none) := by
  simp only [FindByID, kvClient, keyOf_keyItem, h]

/-- C14: `DeleteTodo` makes the one call `Delete`, with no existence check, and
returns its result.  Over a key-value table, deleting an identifier returns no
error whether it is stored or not, deleting it again returns no error, `FindByID`
of it then returns the not-found sentinel, every other identifier is found as
before, every item of another key stays in the table, and a table that never held
the identifier is left as it was. -/
theorem deleteTodo_idempotent (id : UUID) (tbl : List Item) :
    (∀ (σ : Type) (repo : TodoRepository σ) (s : σ),
      (DeleteTodo repo id s).calls = [.Delete id] ∧
      (DeleteTodo repo id s).outcome = .returned (repo.Delete id s).1 ∧
      (DeleteTodo repo id s).state = (repo.Delete id s).2) ∧
    (DeleteTodo (NewTodoRepository kvClient) id tbl).outcome = .returned none ∧
    (DeleteTodo (NewTodoRepository kvClient) id
      (DeleteTodo (NewTodoRepository kvClient) id tbl).state).outcome = .returned none ∧
    (FindByID kvClient id (DeleteTodo (NewTodoRepository kvClient) id tbl).state).1
      = (none, none) ∧
    (∀ id1 : UUID, id1 ≠ id →
      (FindByID kvClient id1 (DeleteTodo (NewTodoRepository kvClient) id tbl).state).1
        = (FindByID kvClient id1 tbl).1) ∧
    (∀ item ∈ tbl, keyOf item ≠ some id.String →
      item ∈ (DeleteTodo (NewTodoRepository kvClient) id tbl).state) ∧
    ((∀ item ∈ tbl, keyOf item ≠ some id.String) →
      (DeleteTodo (NewTodoRepository kvClient) id tbl).state = tbl) := by
  have hst : ∀ t : List Item, (DeleteTodo (NewTodoRepository kvClient) id t).state
      = t.filter (fun it => keyOf it != some id.String) := by
    intro t
    simp [DeleteTodo, NewTodoRepository, Delete, kvClient, keyOf_keyItem]
  have hout : ∀ t : List Item, (DeleteTodo (NewTodoRepository kvClient) id t).outcome
      = .returned none := by
    intro t
    simp [DeleteTodo, NewTodoRepository, Delete, kvClient, keyOf_keyItem]
  refine ⟨fun σ repo s => ⟨rfl, rfl, rfl⟩, hout tbl, hout _, ?_, ?_, ?_, ?_⟩
  · rw [hst]
    exact FindByID_kv_none id _ (kv_find_filter_same tbl id.String)
  · intro id1 hne
    rw [hst]
    apply FindByID_kv_congr
    apply kv_find_filter_other
    intro hc
    exact hne (UUID.String_injective _ _ hc)
  · intro item hmem hkey
    rw [hst]
    exact List.mem_filter.mpr ⟨hmem, by simpa using hkey⟩
  · intro hall
    rw [hst]
    exact List.filter_eq_self.mpr (fun item hmem => by simpa using hall item hmem)

/-- The order of instants behind `Before`, spelled out. -/
theorem Time.before_eq_false_iff (t u : Time) :
    u.Before t = false ↔ t.sec < u.sec ∨ (t.sec = u.sec ∧ t.nsec ≤ u.nsec) := by
  simp only [Time.Before, Bool.or_eq_false_iff, decide_eq_false_iff_not, Bool.and_eq_false_imp,
    beq_iff_eq]
  constructor
  · rintro ⟨a, b⟩
    by_cases h : t.sec = u.sec
    · exact Or.inr ⟨h, by have := b h.symm; omega⟩
    · exact Or.inl (by omega)
  · rintro (h | ⟨h1, h2⟩)
    · exact ⟨by omega, fun e => by omega⟩
    · exact ⟨by omega, fun _ => by omega⟩

/-- The wall clock of a UTC reading, read as UTC, is again a UTC reading of the same year. -/
theorem Time.onUTCClock_wall (t : Time) (h : t.OnUTCClock) :
    Time.OnUTCClock ⟨t.sec + t.offset, 0, 0⟩ := by
  obtain ⟨h1, h2, h3⟩ := h
  simp only [Time.OnUTCClock, Time.Year, Int.add_zero] at h2 h3 ⊢
  exact ⟨trivial, h2, h3⟩

/-- An item written through the mapper decodes to its todo with the timestamps cut
down to whole seconds, and that todo is in order. -/
theorem StoredBy.decode {c : Time} {item : Item} (h : StoredBy c item) :
    ∃ r : Todo, item = marshalTodo r ∧
      unmarshalTodo item = .ok { r with CreatedAt := ⟨r.CreatedAt.sec + r.CreatedAt.offset, 0, 0⟩
                                        UpdatedAt := ⟨r.UpdatedAt.sec + r.UpdatedAt.offset, 0, 0⟩ } ∧
      r.CreatedAt.OnUTCClock ∧ r.UpdatedAt.OnUTCClock ∧ r.Ordered = true ∧
      c.Before r.CreatedAt = false := by
  obtain ⟨r, hi, hc, hu, ho, hb⟩ := h
  refine ⟨r, hi, ?_, hc, hu, ho, hb⟩
  rw [hi]
  exact unmarshalTodo_marshalTodo r hc.2.1 hc.2.2 hu.2.1 hu.2.2

/-- The todo decoded from an item written through the mapper is in order. -/
theorem StoredBy.ordered {c : Time} {item : Item} (h : StoredBy c item) (t : Todo)
    (ht : unmarshalTodo item = .ok t) : t.Ordered = true := by
  obtain ⟨r, -, hd, hc, hu, ho, -⟩ := h.decode
  rw [hd] at ht
  cases ht
  simp only [Todo.Ordered, Bool.not_eq_true'] at ho ⊢
  rw [Time.before_eq_false_iff] at ho ⊢
  simp only [hc.1, hu.1, Int.add_zero]
  omega

/-- An item stored not after `c` is stored not after any later reading. -/
theorem StoredBy.mono {c c1 : Time} {item : Item} (h : StoredBy c item)
    (hle : c1.Before c = false) : StoredBy c1 item := by
  obtain ⟨r, hi, hc, hu, ho, hb⟩ := h
  refine ⟨r, hi, hc, hu, ho, ?_⟩
  rw [Time.before_eq_false_iff] at hb hle ⊢
  omega


/-- The items of the table after a write are the item written and items of the table before. -/
theorem kv_put_mem (tbl : List Item) (r : Todo) (item : Item)
    (h : item ∈ (kvClient.PutItem (marshalTodo r) tbl).2) :
    item = marshalTodo r ∨ item ∈ tbl := by
  simp only [kvClient, keyOf_marshalTodo, List.mem_append, List.mem_filter, List.mem_singleton] at h
  rcases h with h | h
  · exact Or.inr h.1
  · exact Or.inl h

/-- On a key-value table `FindByID` leaves the table as it is, and it returns the
not-found sentinel, or the error or the todo that an item of the table decodes to. -/
theorem FindByID_kv_cases (id : UUID) (tbl : List Item) :
    (FindByID kvClient id tbl).2 = tbl ∧
    ((FindByID kvClient id tbl).1 = (none, none) ∨
      ∃ item ∈ tbl,
        (∃ e, unmarshalTodo item = .error e ∧ (FindByID kvClient id tbl).1 = (none, some e)) ∨
        (∃ t, unmarshalTodo item = .ok t ∧ (FindByID kvClient id tbl).1 = (some t, none))) := by
  simp only [FindByID, kvClient, keyOf_keyItem]
  rcases hf : tbl.find? (fun it => keyOf it == some id.String) with _ | item
  · exact ⟨rfl, Or.inl rfl⟩
  · have hm : item ∈ tbl := List.mem_of_find?_eq_some hf
    simp only []
    rcases hu : unmarshalTodo item with e | t
    · exact ⟨rfl, Or.inr ⟨item, hm, Or.inl ⟨e, hu, rfl⟩⟩⟩
    · exact ⟨rfl, Or.inr ⟨item, hm, Or.inr ⟨t, hu, rfl⟩⟩⟩


/-- The table `UpdateTodo` leaves over a key-value table: the table with the merged
todo written when `FindByID` returned a todo, the table as it was otherwise. -/
theorem UpdateTodo_kv (now : Time) (id : UUID) (u : TodoUpdate) (tbl : List Item) :
    ((FindByID kvClient id tbl).1 = (none, none) ∧
      (UpdateTodo (NewTodoRepository kvClient) now id u tbl).state = tbl ∧
      (UpdateTodo (NewTodoRepository kvClient) now id u tbl).outcome = .panicked) ∨
    (∃ item ∈ tbl, ∃ e, unmarshalTodo item = .error e ∧
      (UpdateTodo (NewTodoRepository kvClient) now id u tbl).state = tbl ∧
      (UpdateTodo (NewTodoRepository kvClient) now id u tbl).outcome = .returned (none, some e)) ∨
    (∃ item ∈ tbl, ∃ t, unmarshalTodo item = .ok t ∧
      (UpdateTodo (NewTodoRepository kvClient) now id u tbl).state
        = (kvClient.PutItem (marshalTodo (applyUpdate t u now)) tbl).2 ∧
      (UpdateTodo (NewTodoRepository kvClient) now id u tbl).outcome
        = .returned (some (applyUpdate t u now), none)) := by
  obtain ⟨hs, hc⟩ := FindByID_kv_cases id tbl
  rcases hc with h | ⟨item, hm, ⟨e, he, h⟩ | ⟨t, ht, h⟩⟩
  · left
    have hF : (NewTodoRepository kvClient).FindByID id tbl = ((none, none), tbl) := Prod.ext h hs
    simp [UpdateTodo, hF, h]
  · right; left
    have hF : (NewTodoRepository kvClient).FindByID id tbl = ((none, some e), tbl) := Prod.ext h hs
    exact ⟨item, hm, e, he, by simp [UpdateTodo, hF], by simp [UpdateTodo, hF]⟩
  · right; right
    have hF : (NewTodoRepository kvClient).FindByID id tbl = ((some t, none), tbl) := Prod.ext h hs
    obtain ⟨o1, -, o3⟩ := UpdateTodo_of_found (NewTodoRepository kvClient) now id u tbl tbl t hF
    have hu := (Create_of_put kvClient (applyUpdate t u now) tbl (kv_put_marshalTodo _ tbl).1).2
    refine ⟨item, hm, t, ht, ?_, ?_⟩
    · rw [o3]
      exact congrArg (fun r => r.2) hu
    · rw [o1]
      exact congrArg (fun r => Outcome.returned r.1) hu

/-- The todo `UpdateTodo` merges from an item written through the mapper, at a UTC
reading not before the one the item was stored by, is in order and is itself fit
to be stored by the new reading. -/
theorem applyUpdate_stored (c now : Time) (item : Item) (t : Todo) (u : TodoUpdate)
    (hst : StoredBy c item) (ht : unmarshalTodo item = .ok t) (hutc : now.OnUTCClock)
    (hle : now.Before c = false) :
    (applyUpdate t u now).Ordered = true ∧ StoredBy now (marshalTodo (applyUpdate t u now)) := by
  obtain ⟨r, -, hd, hc, hu, ho, hb⟩ := hst.decode
  rw [hd] at ht
  cases ht
  have hord : now.Before ⟨r.CreatedAt.sec + r.CreatedAt.offset, 0, 0⟩ = false := by
    rw [Time.before_eq_false_iff] at hb hle ⊢
    simp only [hc.1, Int.add_zero]
    omega
  refine ⟨by simpa [Todo.Ordered, applyUpdate] using hord, _, rfl, ?_, hutc, ?_, ?_⟩
  · exact Time.onUTCClock_wall _ hc
  · simpa [Todo.Ordered, applyUpdate] using hord
  · simpa [applyUpdate] using hord

/-- One call at a UTC reading that does not go back keeps every item of the table
an item written through the mapper from a todo in order. -/
theorem stepTable_stored (c : Time) (tbl : List Item) (op : Op)
    (hinv : ∀ item ∈ tbl, StoredBy c item) (hutc : op.now.OnUTCClock)
    (hle : op.now.Before c = false) : ∀ item ∈ stepTable tbl op, StoredBy op.now item := by
  have hrefl : ∀ t : Time, t.Before t = false := fun t => by
    rw [Time.before_eq_false_iff]; omega
  cases op with
  | create now newID input =>
    intro item hmem
    have hc := (Create_of_put kvClient ⟨newID, input.Title, input.Description, false, now, now⟩ tbl
      (kv_put_marshalTodo _ tbl).1).1
    have hs : stepTable tbl (.create now newID input)
        = (kvClient.PutItem (marshalTodo ⟨newID, input.Title, input.Description, false, now, now⟩)
            tbl).2 := by
      simp only [stepTable, CreateTodo, NewTodoRepository, hc]
    rw [hs] at hmem
    rcases kv_put_mem _ _ _ hmem with h | h
    · exact ⟨_, h, hutc, hutc, by simp [Todo.Ordered, hrefl], hrefl _⟩
    · exact (hinv item h).mono hle
  | update now id u =>
    intro item hmem
    simp only [stepTable] at hmem
    simp only [Op.now] at hutc hle ⊢
    rcases UpdateTodo_kv now id u tbl with ⟨-, hs, -⟩ | ⟨_, _, _, _, hs, -⟩ | ⟨it, hit, t, ht, hs, -⟩
    · rw [hs] at hmem
      exact (hinv item hmem).mono hle
    · rw [hs] at hmem
      exact (hinv item hmem).mono hle
    · rw [hs] at hmem
      rcases kv_put_mem _ _ _ hmem with h | h
      · rw [h]
        exact (applyUpdate_stored c now it t u (hinv it hit) ht hutc hle).2
      · exact (hinv item h).mono hle

/-- After calls at UTC readings that do not go back, every item of the table is an
item written through the mapper from a todo in order, stored by some reading. -/
theorem runTable_stored (ops : List Op) (c : Time) (tbl : List Item)
    (hinv : ∀ item ∈ tbl, StoredBy c item) (h : clockFrom c ops) :
    ∃ c1, ∀ item ∈ runTable tbl ops, StoredBy c1 item := by
  induction ops generalizing c tbl with
  | nil => exact ⟨c, hinv⟩
  | cons op rest ih =>
    obtain ⟨h1, h2, h3⟩ := h
    exact ih op.now (stepTable tbl op) (stepTable_stored c tbl op hinv h1 h2) h3

/-- Before each call of such a sequence the table is as in `runTable_stored`, for a
reading the call's own reading is not before. -/
theorem runTable_stored_before (pre rest : List Op) (op : Op) (c : Time) (tbl : List Item)
    (hinv : ∀ item ∈ tbl, StoredBy c item) (h : clockFrom c (pre ++ op :: rest)) :
    ∃ c1, (∀ item ∈ runTable tbl pre, StoredBy c1 item) ∧ op.now.OnUTCClock ∧
      op.now.Before c1 = false := by
  induction pre generalizing c tbl with
  | nil => exact ⟨c, hinv, h.1, h.2.1⟩
  | cons p pre1 ih =>
    obtain ⟨h1, h2, h3⟩ := h
    exact ih p.now (stepTable tbl p) (stepTable_stored c tbl p hinv h1 h2) h3

/-- Every todo the decoding loop returns was in the slice at the start or is decoded
from one of the items. -/
theorem unmarshalAll_mem (items : List Item) (acc ts : List Todo)
    (h : unmarshalAll items acc = (some ts, none)) :
    ∀ t ∈ ts, t ∈ acc ∨ ∃ item ∈ items, unmarshalTodo item = .ok t := by
  induction items generalizing acc with
  | nil =>
    simp only [unmarshalAll, Prod.mk.injEq, Option.some.injEq, and_true] at h
    subst h
    exact fun t ht => Or.inl ht
  | cons item rest ih =>
    simp only [unmarshalAll] at h
    rcases hu : unmarshalTodo item with e | t0
    · rw [hu] at h; simp at h
    · rw [hu] at h
      intro t ht
      rcases ih (acc ++ [t0]) h t ht with hacc | ⟨it, hit, hd⟩
      · rcases List.mem_append.mp hacc with ha | ha
        · exact Or.inl ha
        · rw [List.mem_singleton] at ha
          subst ha
          exact Or.inr ⟨item, List.mem_cons_self _ _, hu⟩
      · exact Or.inr ⟨it, List.mem_cons_of_mem _ hit, hd⟩

/-- On a UTC clock the order `created_at ≤ updated_at` is kept: after any sequence of
`CreateTodo` and `UpdateTodo` calls on an empty key-value table, made at UTC
readings with four-digit years that do not go back, every item of the table is
the item of a todo in order, every todo `GetTodo` or `GetTodos` returns is in
order, and so is every todo an `UpdateTodo` of the sequence returned. -/
theorem ordered_on_utc_clock (ops : List Op) (c : Time) (h : clockFrom c ops) :
    (∀ item ∈ runTable [] ops, ∃ r : Todo, item = marshalTodo r ∧ r.Ordered = true) ∧
    (∀ id t, (GetTodo (NewTodoRepository kvClient) id (runTable [] ops)).outcome
      = .returned (some t, none) → t.Ordered = true) ∧
    (∀ ts, (GetTodos (NewTodoRepository kvClient) (runTable [] ops)).outcome
      = .returned (some ts, none) → ∀ t ∈ ts, t.Ordered = true) ∧
    (∀ (pre rest : List Op) now id u t, ops = pre ++ Op.update now id u :: rest →
      (UpdateTodo (NewTodoRepository kvClient) now id u (runTable [] pre)).outcome
        = .returned (some t, none) → t.Ordered = true) := by
  obtain ⟨c1, hinv⟩ := runTable_stored ops c [] (fun _ hm => by simp at hm) h
  refine ⟨fun item hm => ?_, ?_, ?_, ?_⟩
  · obtain ⟨r, hi, -, -, ho, -⟩ := hinv item hm
    exact ⟨r, hi, ho⟩
  · intro id t ht
    obtain ⟨-, hc⟩ := FindByID_kv_cases id (runTable [] ops)
    have ht1 : (FindByID kvClient id (runTable [] ops)).1 = (some t, none) := by
      simpa [GetTodo, NewTodoRepository] using ht
    rcases hc with h0 | ⟨item, hm, ⟨e, -, h0⟩ | ⟨t1, hd, h0⟩⟩
    · rw [h0] at ht1; simp at ht1
    · rw [h0] at ht1; simp at ht1
    · rw [h0] at ht1
      simp only [Prod.mk.injEq, Option.some.injEq, and_true] at ht1
      subst ht1
      exact (hinv item hm).ordered _ hd
  · intro ts hts t ht
    have h1 : unmarshalAll (runTable [] ops) [] = (some ts, none) := by
      simpa [GetTodos, NewTodoRepository, FindAll, kvClient] using hts
    rcases unmarshalAll_mem _ _ _ h1 t ht with h0 | ⟨item, hm, hd⟩
    · simp at h0
    · exact (hinv item hm).ordered _ hd
  · intro pre rest now id u t hops hout
    rw [hops] at h
    obtain ⟨c2, hinv2, hutc, hle⟩ := runTable_stored_before pre rest _ c []
      (fun _ hm => by simp at hm) h
    rcases UpdateTodo_kv now id u (runTable [] pre) with ⟨-, -, ho⟩ | ⟨_, _, _, _, -, ho⟩ |
      ⟨it, hit, t1, ht1, -, ho⟩
    · rw [ho] at hout; simp at hout
    · rw [ho] at hout; simp at hout
    · rw [ho] at hout
      simp only [Outcome.returned.injEq, Prod.mk.injEq, Option.some.injEq, and_true] at hout
      subst hout
      exact (applyUpdate_stored c2 now it t1 u (hinv2 it hit) ht1 hutc hle).1


/-- On a UTC clock an update refreshes the update time: for a todo created by
`CreateTodo` at a UTC reading `t0` with a four-digit year and updated at a later
reading `t1`, over a key-value table, `UpdateTodo` returns a todo whose update time
is `t1`, and the update time of the todo `FindByID` returned before is before it. -/
theorem updateTodo_refreshes_on_utc (tbl : List Item) (t0 t1 : Time) (newID : UUID)
    (i : TodoCreate) (u : TodoUpdate) (hutc : t0.OnUTCClock) (hlt : t0.Before t1 = true) :
    ∃ s m : Todo,
      (FindByID kvClient newID
        (CreateTodo (NewTodoRepository kvClient) t0 newID i tbl).state).1 = (some s, none) ∧
      (UpdateTodo (NewTodoRepository kvClient) t1 newID u
        (CreateTodo (NewTodoRepository kvClient) t0 newID i tbl).state).outcome
        = .returned (some m, none) ∧
      m.UpdatedAt = t1 ∧ s.UpdatedAt.Before m.UpdatedAt = true :=
  ⟨_, _, findByID_after_createTodo tbl t0 newID i hutc.2.1 hutc.2.2,
    updateTodo_after_createTodo tbl t0 t1 newID i u hutc.2.1 hutc.2.2, rfl,
    stored_updatedAt_before_of_utc t0 t1 hutc.1 hlt⟩


end TodoApi
